import Mathlib

/-!
Verification of the switchboard HTTP broadcasting proxy.

This file shallowly embeds the core request-dispatch pipeline of the
switchboard proxy (route matching, header construction, fan-out target
selection, the forward handler, and the config resolver / file source)
as executable Lean definitions, and proves the specified properties
about them.

Conventions of the embedding:
- Rust `HashMap<String, String>` values are modelled as association
  lists where an insert removes any previous binding of the key.
- Effectful operations (file reads, network dispatch, URL parsing by
  the external `url` crate, UUID generation by the external `uuid`
  crate, SHA-256 by the external `sha2` crate) are modelled either by
  explicit result parameters (oracles) or, for SHA-256, by a direct
  implementation of FIPS 180-4.
- Machine integers that cannot overflow in the modelled scenarios are
  represented as `Nat`/`Int`.
-/

namespace Switchboard

/-! ## Config data model (src/config/model.rs) -/

/-- Captured route parameters and header-rule maps: an association list
modelling `HashMap<String, String>`; `insertParam` overwrites any
existing binding of the key, as `HashMap::insert` does. -/
abbrev Params := List (String × String)

def insertParam (ps : Params) (k v : String) : Params :=
  ps.filter (fun p => p.1 ≠ k) ++ [(k, v)]

/-- `HeaderRules` from src/config/model.rs. `add` is a HashMap in Rust;
it is modelled as an association list in iteration order. -/
structure HeaderRules where
  add : List (String × String)
  strip : List String
  deriving Repr, DecidableEq

/-- `Target` from src/config/model.rs (`timeout` in milliseconds). -/
structure Target where
  url : String
  primary : Bool
  timeout : Option Nat
  deriving Repr, DecidableEq

/-- `Route` from src/config/model.rs. -/
structure Route where
  path : String
  methods : List String
  timeout : Option Nat
  headers : HeaderRules
  targets : List Target
  deriving Repr, DecidableEq

/-- `Defaults` from src/config/model.rs. -/
structure Defaults where
  timeout : Nat
  forward_headers : Bool
  proxy_headers : Bool
  strip_hop_by_hop : Bool
  headers : HeaderRules
  deriving Repr, DecidableEq

/-- `Defaults::default()` from src/config/model.rs. -/
def Defaults.default : Defaults :=
  { timeout := 5000
    forward_headers := true
    proxy_headers := true
    strip_hop_by_hop := true
    headers := { add := [], strip := [] } }

/-! ## String primitives

Lean core's `String` functions are byte-position based and do not
reduce inside the kernel, so the Rust string operations used by the
proxy are modelled directly over the underlying character lists. -/

/-- Rust `str::split(sep)` for a one-character separator: splits on
every occurrence, keeping empty pieces (so a leading or trailing
separator yields an empty piece, and splitting the empty string yields
one empty piece). -/
def splitChar (sep : Char) : List Char → List (List Char)
  | [] => [[]]
  | c :: rest =>
    match splitChar sep rest with
    | [] => [[]]
    | s :: ss => if c = sep then [] :: s :: ss else (c :: s) :: ss

/-- Rust `str::to_ascii_lowercase` (`Char.toLower` only lowers the
ASCII letters, matching Rust byte-wise ASCII lowering). -/
def lowerStr (s : String) : String := ⟨s.data.map Char.toLower⟩

/-- Rust `str::strip_prefix(':')`: the remainder when the string
starts with a colon. -/
def chopColon (s : String) : Option String :=
  match s.data with
  | ':' :: rest => some ⟨rest⟩
  | _ => none

/-- Rust `str::ends_with("/*")`. -/
def endsWithSlashStar (s : String) : Bool :=
  match s.data.reverse with
  | '*' :: '/' :: _ => true
  | _ => false

/-- The prefix of a `".../*"` route path without the trailing `/*`
(Rust `&route_path[..route_path.len() - 2]`; both dropped characters
are single-byte, so byte and character slicing agree). -/
def chopSlashStar (s : String) : String :=
  ⟨s.data.take (s.data.length - 2)⟩

/-! ## Route matching (src/proxy/routing.rs) -/

/-- `path.split('/').filter(|s| !s.is_empty())` from match_route. -/
def splitSegs (path : String) : List String :=
  ((splitChar '/' path.data).map (fun cs => (⟨cs⟩ : String))).filter
    (fun s => s ≠ "")

/-- `method_matches` from src/proxy/routing.rs: the route's method list
contains `"*"` or an ASCII-case-insensitive match of the request
method. -/
def methodMatches (methods : List String) (method : String) : Bool :=
  methods.any (fun m => m == "*" || lowerStr m == lowerStr method)

/-- `segments_match_exact` from src/proxy/routing.rs. -/
def segmentsMatchExact (route request : List String) : Bool :=
  (route.zip request).all (fun p => p.1 == p.2)

/-- The inner per-segment loop of `match_route`: walks zipped
(route segment, request segment) pairs accumulating specificity and
captured parameters; `none` when a literal segment mismatches. -/
def scoreZip : List (String × String) → Int → Params → Option (Int × Params)
  | [], spec, params => some (spec, params)
  | (rs, qs) :: rest, spec, params =>
    match chopColon rs with
    | some name => scoreZip rest (spec + 5) (insertParam params name qs)
    | none =>
      if rs == qs then
        scoreZip rest (spec + 10) params
      else
        none

/-- The loop body state machine of `match_route` from
src/proxy/routing.rs: iterates over the remaining routes carrying the
current index, best match and best specificity (initially -1). -/
def matchRouteAux (reqSegs : List String) (method : String) :
    Nat → List Route → Option (Nat × Params) → Int → Option (Nat × Params)
  | _, [], best, _ => best
  | idx, route :: rest, best, bestSpec =>
    if !methodMatches route.methods method then
      matchRouteAux reqSegs method (idx + 1) rest best bestSpec
    else if route.path == "/*" || route.path == "*" then
      (if bestSpec < 0 then
        matchRouteAux reqSegs method (idx + 1) rest (some (idx, [])) 0
      else
        matchRouteAux reqSegs method (idx + 1) rest best bestSpec)
    else if endsWithSlashStar route.path then
      (let pfxSegs := splitSegs (chopSlashStar route.path)
      if pfxSegs.length ≤ reqSegs.length &&
          segmentsMatchExact pfxSegs (reqSegs.take pfxSegs.length) then
        (let spec : Int := (pfxSegs.length : Int) * 10
        if bestSpec < spec then
          matchRouteAux reqSegs method (idx + 1) rest (some (idx, [])) spec
        else
          matchRouteAux reqSegs method (idx + 1) rest best bestSpec)
      else
        matchRouteAux reqSegs method (idx + 1) rest best bestSpec)
    else
      (let routeSegs := splitSegs route.path
      if routeSegs.length == reqSegs.length then
        (match scoreZip (routeSegs.zip reqSegs) 0 [] with
        | some (spec, params) =>
          if bestSpec < spec then
            matchRouteAux reqSegs method (idx + 1) rest (some (idx, params)) spec
          else
            matchRouteAux reqSegs method (idx + 1) rest best bestSpec
        | none => matchRouteAux reqSegs method (idx + 1) rest best bestSpec)
      else
        matchRouteAux reqSegs method (idx + 1) rest best bestSpec)

/-- `match_route` from src/proxy/routing.rs. -/
def match_route (routes : List Route) (path method : String) :
    Option (Nat × Params) :=
  matchRouteAux (splitSegs path) method 0 routes none (-1)

/-- Specification-side candidate evaluation: the specificity score and
captured parameters a single route earns against the request segments
and method, `none` when the candidate does not qualify (per spec
section 4.1). -/
def scoreRoute (reqSegs : List String) (method : String) (route : Route) :
    Option (Int × Params) :=
  if !methodMatches route.methods method then
    none
  else if route.path == "/*" || route.path == "*" then
    some (0, [])
  else if endsWithSlashStar route.path then
    (let pfxSegs := splitSegs (chopSlashStar route.path)
    if pfxSegs.length ≤ reqSegs.length &&
        segmentsMatchExact pfxSegs (reqSegs.take pfxSegs.length) then
      some ((pfxSegs.length : Int) * 10, [])
    else
      none)
  else
    (let routeSegs := splitSegs route.path
    if routeSegs.length == reqSegs.length then
      scoreZip (routeSegs.zip reqSegs) 0 []
    else
      none)

/-- Specification-side first-wins argmax over the candidates of a route
list: returns (relative index, score, params) of the highest-scoring
candidate, the earliest winning ties. -/
def bestCand (reqSegs : List String) (method : String) :
    List Route → Option (Nat × Int × Params)
  | [] => none
  | r :: rest =>
    match scoreRoute reqSegs method r, bestCand reqSegs method rest with
    | none, none => none
    | none, some (j, s, ps) => some (j + 1, s, ps)
    | some (s, ps), none => some (0, s, ps)
    | some (s, ps), some (j, s2, ps2) =>
      if s < s2 then some (j + 1, s2, ps2) else some (0, s, ps)

/-- Folding the remaining best-candidate information into the loop
state `(best, bestSpec)` carried by `matchRouteAux`. -/
def combineBest (best : Option (Nat × Params)) (bestSpec : Int) (idx : Nat) :
    Option (Nat × Int × Params) → Option (Nat × Params)
  | none => best
  | some (j, s, ps) => if bestSpec < s then some (idx + j, ps) else best

lemma scoreZip_le :
    ∀ (l : List (String × String)) (spec : Int) (ps : Params) (s : Int)
      (qs : Params), scoreZip l spec ps = some (s, qs) → spec ≤ s := by
  intro l
  induction l with
  | nil =>
    intro spec ps s qs h
    simp only [scoreZip, Option.some.injEq, Prod.mk.injEq] at h
    omega
  | cons p rest ih =>
    obtain ⟨rs, qs0⟩ := p
    intro spec ps s qs h
    simp only [scoreZip] at h
    cases hc : chopColon rs with
    | some name =>
      rw [hc] at h
      have := ih (spec + 5) (insertParam ps name qs0) s qs h
      omega
    | none =>
      rw [hc] at h
      by_cases he : rs == qs0
      · rw [if_pos he] at h
        have := ih (spec + 10) ps s qs h
        omega
      · rw [if_neg he] at h
        cases h

lemma scoreRoute_nonneg (reqSegs : List String) (method : String)
    (route : Route) (s : Int) (ps : Params)
    (h : scoreRoute reqSegs method route = some (s, ps)) : 0 ≤ s := by
  simp only [scoreRoute] at h
  by_cases hm : methodMatches route.methods method
  · simp only [hm, Bool.not_true] at h
    by_cases hc : (route.path == "/*" || route.path == "*") = true
    · simp only [hc, if_true] at h
      simp only [Bool.false_eq_true, if_false] at h
      injection h with h
      injection h with h1 h2
      omega
    · simp only [hc] at h
      simp only [Bool.false_eq_true, if_false] at h
      by_cases he : endsWithSlashStar route.path = true
      · simp only [he, if_true] at h
        split at h
        · injection h with h
          injection h with h1 h2
          have : (0 : Int) ≤ ((splitSegs (chopSlashStar route.path)).length : Int) * 10 := by
            positivity
          omega
        · cases h
      · simp only [he, Bool.false_eq_true, if_false] at h
        split at h
        · exact scoreZip_le _ 0 [] s ps h
        · cases h
  · simp [hm] at h

/-- One step of the match loop, factored through the specification-side
candidate score. -/
lemma matchRouteAux_cons (reqSegs : List String) (method : String)
    (idx : Nat) (route : Route) (rest : List Route)
    (best : Option (Nat × Params)) (bestSpec : Int) :
    matchRouteAux reqSegs method idx (route :: rest) best bestSpec =
      match scoreRoute reqSegs method route with
      | none => matchRouteAux reqSegs method (idx + 1) rest best bestSpec
      | some (s, ps) =>
        if bestSpec < s then
          matchRouteAux reqSegs method (idx + 1) rest (some (idx, ps)) s
        else
          matchRouteAux reqSegs method (idx + 1) rest best bestSpec := by
  simp only [matchRouteAux, scoreRoute]
  by_cases hm : methodMatches route.methods method
  · simp only [hm, Bool.not_true, Bool.false_eq_true, if_false]
    by_cases hc : (route.path == "/*" || route.path == "*") = true
    · simp only [hc, if_true]
    · simp only [hc, Bool.false_eq_true, if_false]
      by_cases he : endsWithSlashStar route.path = true
      · simp only [he, if_true]
        split
        · rfl
        · rfl
      · simp only [he, Bool.false_eq_true, if_false]
        split
        · cases hz : scoreZip ((splitSegs route.path).zip reqSegs) 0 [] with
          | none => simp only [hz]
          | some p => obtain ⟨s, ps⟩ := p; simp only [hz]
        · rfl
  · simp only [hm, Bool.not_false, if_true]

lemma matchRouteAux_eq_combine (reqSegs : List String) (method : String)
    (rest : List Route) :
    ∀ (idx : Nat) (best : Option (Nat × Params)) (bestSpec : Int),
      matchRouteAux reqSegs method idx rest best bestSpec =
        combineBest best bestSpec idx (bestCand reqSegs method rest) := by
  induction rest with
  | nil => intro idx best bestSpec; rfl
  | cons route rest ih =>
    intro idx best bestSpec
    rw [matchRouteAux_cons]
    cases hr : scoreRoute reqSegs method route with
    | none =>
      rw [ih]
      cases hb : bestCand reqSegs method rest with
      | none => simp [bestCand, hr, hb, combineBest]
      | some t =>
        obtain ⟨j, s, ps⟩ := t
        simp only [bestCand, hr, hb, combineBest]
        have h1 : idx + 1 + j = idx + (j + 1) := by omega
        rw [h1]
    | some p =>
      obtain ⟨s, ps⟩ := p
      simp only [bestCand, hr]
      by_cases hss : bestSpec < s
      · rw [if_pos hss, ih]
        cases hb : bestCand reqSegs method rest with
        | none => simp [combineBest, hss]
        | some t =>
          obtain ⟨j, s2, ps2⟩ := t
          by_cases h2 : s < s2
          · simp only [hb, if_pos h2, combineBest,
              if_pos h2, if_pos (lt_trans hss h2)]
            have h1 : idx + 1 + j = idx + (j + 1) := by omega
            rw [h1]
          · simp only [hb, if_neg h2, combineBest, if_pos hss, Nat.add_zero]
      · rw [if_neg hss, ih]
        cases hb : bestCand reqSegs method rest with
        | none => simp [hb, combineBest, hss]
        | some t =>
          obtain ⟨j, s2, ps2⟩ := t
          by_cases h2 : s < s2
          · simp only [hb, if_pos h2, combineBest]
            by_cases h3 : bestSpec < s2
            · rw [if_pos h3, if_pos h3]
              have h1 : idx + 1 + j = idx + (j + 1) := by omega
              rw [h1]
            · rw [if_neg h3, if_neg h3]
          · have h3 : ¬ bestSpec < s2 := by omega
            simp only [hb, if_neg h2, combineBest, if_neg h3, if_neg hss]

/-- When no candidate is selected, every route fails to qualify. -/
lemma bestCand_none (reqSegs : List String) (method : String) :
    ∀ (l : List Route), bestCand reqSegs method l = none →
      ∀ i (hi : i < l.length),
        scoreRoute reqSegs method (l.get ⟨i, hi⟩) = none := by
  intro l
  induction l with
  | nil => intro _ i hi; exact absurd hi (by simp)
  | cons r rest ih =>
    intro h i hi
    cases hr : scoreRoute reqSegs method r with
    | some p =>
      exfalso
      obtain ⟨s, ps⟩ := p
      cases hb : bestCand reqSegs method rest with
      | none => simp [bestCand, hr, hb] at h
      | some t =>
        obtain ⟨j, s2, ps2⟩ := t
        simp only [bestCand, hr, hb] at h
        split at h <;> cases h
    | none =>
      cases hb : bestCand reqSegs method rest with
      | some t =>
        obtain ⟨j, s2, ps2⟩ := t
        simp [bestCand, hr, hb] at h
      | none =>
        match i with
        | 0 => exact hr
        | i + 1 => exact ih hb i (by simpa using hi)

/-- The selected candidate is a genuine first-wins argmax: it
qualifies with the reported score and parameters, no route scores
higher, and every earlier route scores strictly lower. -/
lemma bestCand_some (reqSegs : List String) (method : String) :
    ∀ (l : List Route) (j : Nat) (s : Int) (ps : Params),
      bestCand reqSegs method l = some (j, s, ps) →
      ∃ hj : j < l.length,
        scoreRoute reqSegs method (l.get ⟨j, hj⟩) = some (s, ps) ∧
        (∀ i (hi : i < l.length) s2 ps2,
          scoreRoute reqSegs method (l.get ⟨i, hi⟩) = some (s2, ps2) →
            s2 ≤ s) ∧
        (∀ i (hi : i < l.length), i < j → ∀ s2 ps2,
          scoreRoute reqSegs method (l.get ⟨i, hi⟩) = some (s2, ps2) →
            s2 < s) := by
  intro l
  induction l with
  | nil => intro j s ps h; simp [bestCand] at h
  | cons r rest ih =>
    intro j s ps h
    cases hr : scoreRoute reqSegs method r with
    | none =>
      cases hb : bestCand reqSegs method rest with
      | none => simp [bestCand, hr, hb] at h
      | some t =>
        obtain ⟨j0, s0, ps0⟩ := t
        simp only [bestCand, hr, hb, Option.some.injEq, Prod.mk.injEq] at h
        obtain ⟨hj, hs, hps⟩ := h
        subst hj hs hps
        obtain ⟨hj0, hsc, hmax, hfirst⟩ := ih j0 s0 ps0 hb
        refine ⟨Nat.succ_lt_succ hj0, hsc, ?_, ?_⟩
        · intro i hi s2 ps2 hsc2
          match i with
          | 0 => rw [show (r :: rest).get ⟨0, hi⟩ = r from rfl, hr] at hsc2; cases hsc2
          | i + 1 => exact hmax i (by simpa using hi) s2 ps2 hsc2
        · intro i hi hij s2 ps2 hsc2
          match i with
          | 0 => rw [show (r :: rest).get ⟨0, hi⟩ = r from rfl, hr] at hsc2; cases hsc2
          | i + 1 => exact hfirst i (by simpa using hi) (by omega) s2 ps2 hsc2
    | some p =>
      obtain ⟨sr, psr⟩ := p
      cases hb : bestCand reqSegs method rest with
      | none =>
        simp only [bestCand, hr, hb, Option.some.injEq, Prod.mk.injEq] at h
        obtain ⟨hj, hs, hps⟩ := h
        subst hj hs hps
        refine ⟨Nat.succ_pos _, hr, ?_, ?_⟩
        · intro i hi s2 ps2 hsc2
          match i with
          | 0 =>
            rw [show (r :: rest).get ⟨0, hi⟩ = r from rfl, hr] at hsc2
            injection hsc2 with hsc2
            injection hsc2 with h1 h2
            omega
          | i + 1 =>
            have hz : scoreRoute reqSegs method
                ((r :: rest).get ⟨i + 1, hi⟩) = none :=
              bestCand_none reqSegs method rest hb i (by simpa using hi)
            rw [hz] at hsc2
            cases hsc2
        · intro i hi hij; omega
      | some t =>
        obtain ⟨j0, s0, ps0⟩ := t
        by_cases hlt : sr < s0
        · simp only [bestCand, hr, hb, if_pos hlt, Option.some.injEq,
            Prod.mk.injEq] at h
          obtain ⟨hj, hs, hps⟩ := h
          subst hj hs hps
          obtain ⟨hj0, hsc, hmax, hfirst⟩ := ih j0 s0 ps0 hb
          refine ⟨Nat.succ_lt_succ hj0, hsc, ?_, ?_⟩
          · intro i hi s2 ps2 hsc2
            match i with
            | 0 =>
              rw [show (r :: rest).get ⟨0, hi⟩ = r from rfl, hr] at hsc2
              injection hsc2 with hsc2
              injection hsc2 with h1 h2
              omega
            | i + 1 => exact hmax i (by simpa using hi) s2 ps2 hsc2
          · intro i hi hij s2 ps2 hsc2
            match i with
            | 0 =>
              rw [show (r :: rest).get ⟨0, hi⟩ = r from rfl, hr] at hsc2
              injection hsc2 with hsc2
              injection hsc2 with h1 h2
              omega
            | i + 1 => exact hfirst i (by simpa using hi) (by omega) s2 ps2 hsc2
        · simp only [bestCand, hr, hb, if_neg hlt, Option.some.injEq,
            Prod.mk.injEq] at h
          obtain ⟨hj, hs, hps⟩ := h
          subst hj hs hps
          obtain ⟨hj0, hsc, hmax, hfirst⟩ := ih j0 s0 ps0 hb
          refine ⟨Nat.succ_pos _, hr, ?_, ?_⟩
          · intro i hi s2 ps2 hsc2
            match i with
            | 0 =>
              rw [show (r :: rest).get ⟨0, hi⟩ = r from rfl, hr] at hsc2
              injection hsc2 with hsc2
              injection hsc2 with h1 h2
              omega
            | i + 1 =>
              have := hmax i (by simpa using hi) s2 ps2 hsc2
              omega
          · intro i hi hij; omega

/-- `match_route` denotes the first-wins highest-score candidate
selection. -/
lemma match_route_eq_bestCand (routes : List Route) (path method : String) :
    match_route routes path method =
      (bestCand (splitSegs path) method routes).map (fun t => (t.1, t.2.2)) := by
  rw [match_route, matchRouteAux_eq_combine]
  cases hb : bestCand (splitSegs path) method routes with
  | none => rfl
  | some t =>
    obtain ⟨j, s, ps⟩ := t
    have hnn : 0 ≤ s := by
      obtain ⟨hj, hsc, -⟩ := bestCand_some (splitSegs path) method routes j s ps hb
      exact scoreRoute_nonneg _ _ _ _ _ hsc
    simp only [combineBest, Option.map]
    rw [if_pos (by omega : (-1 : Int) < s)]
    simp

/-- C1: for every route table, request path and request method,
`match_route` considers only routes qualifying under `scoreRoute`
(which requires the route's methods to contain "*" or a
case-insensitive match of the request method, and scores catch-all
paths 0, matching prefix wildcards 10 per prefix segment with no
captured parameters, and length-matching segment paths 5 per `:name`
capture and 10 per equal literal segment), and returns the index and
captured parameters of the highest-scoring candidate — the
first-declared route winning equal scores — or `none` when no
candidate qualifies. -/
theorem C1_match_route_specificity (routes : List Route)
    (path method : String) :
    (∀ i ps, match_route routes path method = some (i, ps) →
      ∃ hi : i < routes.length, ∃ s : Int,
        scoreRoute (splitSegs path) method (routes.get ⟨i, hi⟩) =
            some (s, ps) ∧
        (∀ j (hj : j < routes.length) s2 ps2,
          scoreRoute (splitSegs path) method (routes.get ⟨j, hj⟩) =
              some (s2, ps2) → s2 ≤ s) ∧
        (∀ j (hj : j < routes.length), j < i → ∀ s2 ps2,
          scoreRoute (splitSegs path) method (routes.get ⟨j, hj⟩) =
              some (s2, ps2) → s2 < s)) ∧
    (match_route routes path method = none →
      ∀ j (hj : j < routes.length),
        scoreRoute (splitSegs path) method (routes.get ⟨j, hj⟩) = none) := by
  constructor
  · intro i ps h
    rw [match_route_eq_bestCand] at h
    cases hb : bestCand (splitSegs path) method routes with
    | none => rw [hb] at h; cases h
    | some t =>
      obtain ⟨j, s, ps0⟩ := t
      rw [hb] at h
      simp only [Option.map, Option.some.injEq, Prod.mk.injEq] at h
      obtain ⟨hj, hps⟩ := h
      subst hj hps
      obtain ⟨hi, hsc, hmax, hfirst⟩ :=
        bestCand_some (splitSegs path) method routes j s ps0 hb
      exact ⟨hi, s, hsc, hmax, hfirst⟩
  · intro h j hj
    rw [match_route_eq_bestCand] at h
    cases hb : bestCand (splitSegs path) method routes with
    | none => exact bestCand_none (splitSegs path) method routes hb j hj
    | some t => rw [hb] at h; cases h

/-- Concrete route table for the C1 witness: a catch-all route
followed by an exact route, as in spec scenario 1. -/
def c1Routes : List Route :=
  [ { path := "/*", methods := ["*"], timeout := none,
      headers := { add := [], strip := [] },
      targets := [{ url := "http://localhost:8080", primary := false,
                    timeout := none }] },
    { path := "/orders", methods := ["*"], timeout := none,
      headers := { add := [], strip := [] },
      targets := [{ url := "http://localhost:8080", primary := false,
                    timeout := none }] } ]

/-- Witness for C1: on `GET /orders` against `c1Routes`, `match_route`
selects index 1 (the exact route beats the catch-all) and the argmax
characterization holds there. -/
theorem C1_match_route_specificity_witness :
    ∃ hi : 1 < c1Routes.length, ∃ s : Int,
      scoreRoute (splitSegs "/orders") "GET" (c1Routes.get ⟨1, hi⟩) =
          some (s, []) ∧
      (∀ j (hj : j < c1Routes.length) s2 ps2,
        scoreRoute (splitSegs "/orders") "GET" (c1Routes.get ⟨j, hj⟩) =
            some (s2, ps2) → s2 ≤ s) ∧
      (∀ j (hj : j < c1Routes.length), j < 1 → ∀ s2 ps2,
        scoreRoute (splitSegs "/orders") "GET" (c1Routes.get ⟨j, hj⟩) =
            some (s2, ps2) → s2 < s) :=
  (C1_match_route_specificity c1Routes "/orders" "GET").1 1 [] (by decide)

/-! ## Parameter substitution (src/proxy/fanout.rs) -/

/-- Rust `str::len()`: the UTF-8 byte length of a string. -/
def utf8Len (s : String) : Nat :=
  s.data.foldl (fun n c => n + c.utf8Size) 0

/-- Rust `str::replace(pat, to)` over character lists: replaces every
non-overlapping occurrence of `pat`, scanning left to right. The fuel
argument (instantiated with the character count) only bounds the
recursion; every step consumes at least one character, so it is never
exhausted for the nonempty patterns the proxy substitutes
(`":" ++ name`). -/
def replaceCharsFuel (pat rep : List Char) : Nat → List Char → List Char
  | 0, cs => cs
  | _ + 1, [] => []
  | fuel + 1, c :: rest =>
    if pat.isPrefixOf (c :: rest) && !pat.isEmpty then
      rep ++ replaceCharsFuel pat rep fuel ((c :: rest).drop pat.length)
    else
      c :: replaceCharsFuel pat rep fuel rest

/-- Rust `str::replace` on strings. -/
def replaceStr (s pat rep : String) : String :=
  ⟨replaceCharsFuel pat.data rep.data s.data.length s.data⟩

/-- Ordering used by `substitute_params`:
`sort_by_key(|(k, _)| Reverse(k.len()))`, i.e. descending byte
length of the key. -/
def longerKeyFirst (a b : String × String) : Prop :=
  utf8Len b.1 ≤ utf8Len a.1

instance : DecidableRel longerKeyFirst := fun a b =>
  Nat.decLe (utf8Len b.1) (utf8Len a.1)

instance : IsTotal (String × String) longerKeyFirst :=
  ⟨fun a b => Nat.le_total (utf8Len b.1) (utf8Len a.1)⟩

instance : IsTrans (String × String) longerKeyFirst :=
  ⟨fun _ _ _ hab hbc => le_trans hbc hab⟩

/-- `substitute_params` from src/proxy/fanout.rs: sorts the captured
parameters by descending key byte-length and folds `String::replace`
of `":" ++ key` by the value over the URL template. Rust collects the
entries from a `HashMap` whose iteration order is arbitrary and
applies the stable `sort_by_key`; a stable sort computes a unique
list, modelled here by insertion sort over the association list. -/
def substitute_params (url_template : String) (params : Params) : String :=
  let sorted_entries := params.insertionSort longerKeyFirst
  sorted_entries.foldl
    (fun result kv => replaceStr result (":" ++ kv.1) kv.2) url_template

/-- C8: `substitute_params` folds `:name` replacement over a
permutation of the captured parameters that is sorted by descending
key length (so a shorter name is never substituted before a longer
one that contains it), and on the literal example of the claim,
template `http://t:80/u/:uid` with `{uid: "abc"}` resolves to
`http://t:80/u/abc`. -/
theorem C8_substitute_params (url_template : String) (params : Params) :
    (∃ l : Params, l.Perm params ∧
      l.Pairwise (fun a b => utf8Len b.1 ≤ utf8Len a.1) ∧
      substitute_params url_template params =
        l.foldl (fun result kv => replaceStr result (":" ++ kv.1) kv.2)
          url_template) ∧
    substitute_params "http://t:80/u/:uid" [("uid", "abc")] =
      "http://t:80/u/abc" := by
  constructor
  · exact ⟨params.insertionSort longerKeyFirst,
      List.perm_insertionSort longerKeyFirst params,
      List.sorted_insertionSort longerKeyFirst params, rfl⟩
  · rfl

/-! ## Config resolver (src/config/mod.rs) -/

/-- `ConfigVersion` from src/config/mod.rs. -/
inductive ConfigVersion
  | Hash (hex : String)
  deriving Repr, DecidableEq

/-- `ConfigResolver::load_with_fallback` from src/config/mod.rs,
modelled over the outcome of `primary.load()` and, when a fallback
source exists, the outcome of `fallback.load()`: on primary success
return it; on primary failure delegate to the fallback when present,
returning the fallback's own result unchanged; with no fallback,
return the primary error. -/
def load_with_fallback {E A : Type} (primary : Except E A)
    (fallback : Option (Except E A)) : Except E A :=
  match primary with
  | .ok result => .ok result
  | .error primary_err =>
    match fallback with
    | some fb => fb
    | none => .error primary_err

/-- Counterexample for C2: when both the primary and the fallback
source fail, `load_with_fallback` returns the fallback's error, not
the primary error the claim promises. -/
theorem C2_counterexample :
    load_with_fallback (Except.error "primary boom" : Except String Nat)
        (some (Except.error "fallback boom")) =
      Except.error "fallback boom" ∧
    load_with_fallback (Except.error "primary boom" : Except String Nat)
        (some (Except.error "fallback boom")) ≠
      Except.error "primary boom" := by
  refine ⟨rfl, fun h => ?_⟩
  injection h with h2
  exact absurd h2 (by decide)

/-- C2 (amended): `load_with_fallback` returns the primary result on
primary success; on primary failure with a fallback present it returns
the fallback's result — the fallback value on fallback success, and
the fallback's (not the primary's) error when both fail; with no
fallback it returns the primary error. -/
theorem C2_load_with_fallback {E A : Type} (primary : Except E A)
    (fallback : Option (Except E A)) :
    (∀ a, primary = .ok a → load_with_fallback primary fallback = .ok a) ∧
    (∀ e fb, primary = .error e → fallback = some fb →
      load_with_fallback primary fallback = fb) ∧
    (∀ e, primary = .error e → fallback = none →
      load_with_fallback primary fallback = .error e) := by
  refine ⟨?_, ?_, ?_⟩
  · intro a h; subst h; rfl
  · intro e fb h hf; subst h hf; rfl
  · intro e h hf; subst h hf; rfl

/-- Witness for C2: the three branches at concrete outcomes. -/
theorem C2_load_with_fallback_witness :
    load_with_fallback (Except.ok 7 : Except String Nat) none =
        Except.ok 7 ∧
    load_with_fallback (Except.error "e1" : Except String Nat)
        (some (Except.ok 9)) = Except.ok 9 ∧
    load_with_fallback (Except.error "e1" : Except String Nat) none =
      Except.error "e1" :=
  ⟨(C2_load_with_fallback (Except.ok 7 : Except String Nat) none).1 7 rfl,
   (C2_load_with_fallback (Except.error "e1" : Except String Nat)
      (some (Except.ok 9))).2.1 "e1" (Except.ok 9) rfl rfl,
   (C2_load_with_fallback (Except.error "e1" : Except String Nat)
      none).2.2 "e1" rfl rfl⟩

/-! ## Header maps (model of http::HeaderMap as used by the proxy) -/

/-- A header map: a list of (name, value) pairs. `HeaderName` is
normalized to lowercase by the HTTP layer, so names are compared
verbatim. -/
abbrev HeadersM := List (String × String)

/-- `HeaderMap::remove`: drop every value of the name. -/
def hRemove : HeadersM → String → HeadersM
  | [], _ => []
  | (k, w) :: hs, name =>
    if k = name then hRemove hs name else (k, w) :: hRemove hs name

/-- `HeaderMap::insert`: replace all values of the name by one. -/
def hInsert (hs : HeadersM) (name v : String) : HeadersM :=
  hRemove hs name ++ [(name, v)]

/-- `HeaderMap::get`: the first value of the name. -/
def hGet : HeadersM → String → Option String
  | [], _ => none
  | (k, w) :: hs, name => if k = name then some w else hGet hs name

/-- `HeaderValue::from_str` acceptance (http crate): every byte is tab
or at least 32 and not DEL; all bytes of a multibyte character are at
least 128, so the character-level check agrees with the byte-level
one. -/
def headerValueOk (s : String) : Bool :=
  s.data.all (fun c => c.toNat == 9 || (32 ≤ c.toNat && c.toNat ≠ 127))

/-- `HeaderValue::to_str` success (http crate): every byte is visible
ASCII (32..=126) or tab. -/
def headerValueToStrOk (s : String) : Bool :=
  s.data.all (fun c => c.toNat == 9 || (32 ≤ c.toNat && c.toNat ≤ 126))

/-- Valid `HeaderName` token characters after ASCII lowercasing
(lowercase letters, digits, and `!#$%&'*+-.^_|~` and backquote,
listed by code point). -/
def headerNameCharOk (c : Char) : Bool :=
  (97 ≤ c.toNat && c.toNat ≤ 122) || (48 ≤ c.toNat && c.toNat ≤ 57) ||
    (c.toNat ∈ [33, 35, 36, 37, 38, 39, 42, 43, 45, 46, 94, 95, 96, 124, 126])

/-- `HeaderName::from_str` (`key.parse::<HeaderName>()`): lowercases
ASCII letters and accepts only nonempty token-character names. -/
def parseHeaderName (s : String) : Option String :=
  let lowered := lowerStr s
  if s.data ≠ [] && lowered.data.all headerNameCharOk then some lowered
  else none

/-! ## Header construction (src/proxy/headers.rs) -/

/-- The static `HOP_BY_HOP` list from src/proxy/headers.rs (all eight
strings parse as header names, so the Rust `filter_map` keeps all of
them). -/
def hopByHop : List String :=
  ["connection", "keep-alive", "transfer-encoding", "te", "trailer",
   "upgrade", "proxy-authorization", "proxy-authenticate"]

/-- `strip_response_hop_by_hop` from src/proxy/headers.rs: remove the
eight hop-by-hop names, then `content-length`. -/
def strip_response_hop_by_hop (headers : HeadersM) : HeadersM :=
  hRemove (hopByHop.foldl (fun hs name => hRemove hs name) headers)
    "content-length"

/-- The observable parts of a parsed `url::Url` consumed by header
construction: `scheme()`, `host_str()` and `port()` (the `url` crate
is external; `port()` is `none` for the scheme's default port, which
the model inherits as a field). -/
structure UrlModel where
  scheme : String
  host : Option String
  port : Option Nat
  deriving Repr, DecidableEq

/-- Start of `build_forwarded_headers`: clone the original headers
when `forward_headers`, else start empty; then remove the hop-by-hop
names when `strip_hop_by_hop`. -/
def bfhStart (original : HeadersM) (defaults : Defaults) : HeadersM :=
  let headers := if defaults.forward_headers then original else []
  if defaults.strip_hop_by_hop then
    hopByHop.foldl (fun hs name => hRemove hs name) headers
  else headers

/-- Host rewrite of `build_forwarded_headers`: set `host` to the
target URL's host, with `:port` appended when the URL carries an
explicit port. -/
def bfhHost (headers : HeadersM) (target_url : UrlModel) : HeadersM :=
  match target_url.host with
  | none => headers
  | some host =>
    let host_value :=
      match target_url.port with
      | some port => host ++ ":" ++ Nat.repr port
      | none => host
    if headerValueOk host_value then hInsert headers "host" host_value
    else headers

/-- The headers after the start and host-rewrite steps of
`build_forwarded_headers` — the state in which the existing
`x-forwarded-for` value is read. -/
def bfhPre (original : HeadersM) (defaults : Defaults)
    (target_url : UrlModel) : HeadersM :=
  bfhHost (bfhStart original defaults) target_url

/-- Rust `char::is_whitespace` (the Unicode White_Space code
points). -/
def rustIsWhitespace (c : Char) : Bool :=
  (c.toNat ∈ [9, 10, 11, 12, 13, 32, 133, 160, 5760, 8232, 8233,
    8239, 8287, 12288]) || (8192 ≤ c.toNat && c.toNat ≤ 8202)

/-- Rust `str::trim`. -/
def trimStr (s : String) : String :=
  ⟨((s.data.dropWhile rustIsWhitespace).reverse.dropWhile
      rustIsWhitespace).reverse⟩

/-- The final `X-Forwarded-For` value: the existing readable value
with `", " + client_ip` appended, or `client_ip` when absent
(`headers.get(..).and_then(|v| v.to_str().ok()).map_or_else(..)`). -/
def xffValue (headers : HeadersM) (client_ip : String) : String :=
  match (hGet headers "x-forwarded-for").bind
      (fun v => if headerValueToStrOk v then some v else none) with
  | some existing => existing ++ ", " ++ client_ip
  | none => client_ip

/-- The `X-Real-IP` value:
`xff.split(',').next().unwrap_or(client_ip).trim()`. -/
def realIpValue (xff client_ip : String) : String :=
  trimStr ⟨(splitChar ',' xff.data).headD client_ip.data⟩

/-- The repeated `if let Ok(val) = HeaderValue::from_str(v)
{ headers.insert(name, val) }` pattern of src/proxy/headers.rs. -/
def condInsert (hs : HeadersM) (name v : String) : HeadersM :=
  if headerValueOk v then hInsert hs name v else hs

/-- The proxy-metadata step of `build_forwarded_headers` (guarded by
`proxy_headers`): `x-forwarded-for`, `x-real-ip`,
`x-forwarded-proto`, `x-forwarded-host`, `via`, `x-correlation-id`.
Each `HeaderValue::from_str` guard is kept (`condInsert`). -/
def bfhProxy (headers original : HeadersM) (client_ip : String)
    (target_url : UrlModel) (defaults : Defaults)
    (correlation_id : String) : HeadersM :=
  if defaults.proxy_headers then
    let xff := xffValue headers client_ip
    let headers := condInsert headers "x-forwarded-for" xff
    let headers := condInsert headers "x-real-ip" (realIpValue xff client_ip)
    let proto := if target_url.scheme == "https" then "https" else "http"
    let headers := condInsert headers "x-forwarded-proto" proto
    let headers :=
      match hGet original "host" with
      | some original_host => hInsert headers "x-forwarded-host" original_host
      | none => headers
    let headers := condInsert headers "via" "1.1 switchboard"
    let headers := condInsert headers "x-correlation-id" correlation_id
    headers
  else headers

/-- The `headers.add` loops of `build_forwarded_headers`: insert each
rule whose name parses and whose value is a valid header value, and
skip (with a warning) all others. -/
def applyAdd (headers : HeadersM) (rules : List (String × String)) :
    HeadersM :=
  rules.foldl
    (fun hs kv =>
      match parseHeaderName kv.1 with
      | some name =>
        if headerValueOk kv.2 then hInsert hs name kv.2 else hs
      | none => hs)
    headers

/-- The `headers.strip` loops of `build_forwarded_headers`: remove
each name that parses. -/
def applyStrip (headers : HeadersM) (names : List String) : HeadersM :=
  names.foldl
    (fun hs k =>
      match parseHeaderName k with
      | some name => hRemove hs name
      | none => hs)
    headers

/-- `build_forwarded_headers` from src/proxy/headers.rs. -/
def build_forwarded_headers (original : HeadersM) (client_ip : String)
    (target_url : UrlModel) (route : Route) (defaults : Defaults)
    (correlation_id : String) : HeadersM :=
  let headers := bfhPre original defaults target_url
  let headers :=
    bfhProxy headers original client_ip target_url defaults correlation_id
  let headers := applyAdd headers defaults.headers.add
  let headers := applyAdd headers route.headers.add
  let headers := applyStrip headers defaults.headers.strip
  let headers := applyStrip headers route.headers.strip
  headers

/-- The header rules of the route and the defaults never produce the
given (already lowercase) header name, so the add/strip loops leave
that name's value alone. -/
def rulesAvoidName (route : Route) (defaults : Defaults)
    (name : String) : Prop :=
  (∀ kv ∈ defaults.headers.add, parseHeaderName kv.1 ≠ some name) ∧
  (∀ kv ∈ route.headers.add, parseHeaderName kv.1 ≠ some name) ∧
  (∀ k ∈ defaults.headers.strip, parseHeaderName k ≠ some name) ∧
  (∀ k ∈ route.headers.strip, parseHeaderName k ≠ some name)

/-- The names inserted by the host-rewrite and proxy-metadata steps. -/
def proxySetNames : List String :=
  ["host", "x-forwarded-for", "x-real-ip", "x-forwarded-proto",
   "x-forwarded-host", "via", "x-correlation-id"]

/-! ### Lookup lemmas for the header-map model -/

lemma hGet_hRemove (hs : HeadersM) (name q : String) :
    hGet (hRemove hs name) q = if q = name then none else hGet hs q := by
  induction hs with
  | nil => by_cases h : q = name <;> simp [hGet, hRemove, h]
  | cons a hs ih =>
    obtain ⟨k, w⟩ := a
    by_cases hkn : k = name <;> by_cases hkq : k = q <;>
      by_cases hqn : q = name <;>
      simp_all [hGet, hRemove]

lemma hGet_append (l1 l2 : HeadersM) (q : String) :
    hGet (l1 ++ l2) q =
      match hGet l1 q with
      | some v => some v
      | none => hGet l2 q := by
  induction l1 with
  | nil => rfl
  | cons a l1 ih =>
    obtain ⟨k, w⟩ := a
    by_cases h : k = q <;> simp [hGet, h, ih]

lemma hGet_hInsert (hs : HeadersM) (name v q : String) :
    hGet (hInsert hs name v) q = if q = name then some v else hGet hs q := by
  rw [hInsert, hGet_append, hGet_hRemove]
  by_cases h : q = name
  · simp [h, hGet]
  · have h2 : ¬ name = q := fun he => h he.symm
    cases hf : hGet hs q <;> simp [h, h2, hf, hGet]

lemma hGet_condInsert_other (hs : HeadersM) (name v q : String)
    (hq : q ≠ name) : hGet (condInsert hs name v) q = hGet hs q := by
  unfold condInsert
  split
  · rw [hGet_hInsert, if_neg hq]
  · rfl

lemma hGet_condInsert_self (hs : HeadersM) (name v : String)
    (hv : headerValueOk v = true) :
    hGet (condInsert hs name v) name = some v := by
  unfold condInsert
  rw [if_pos hv, hGet_hInsert, if_pos rfl]

lemma hGet_foldlRemove (names : List String) :
    ∀ (hs : HeadersM) (q : String),
      hGet (names.foldl (fun h n => hRemove h n) hs) q =
        if q ∈ names then none else hGet hs q := by
  induction names with
  | nil => intro hs q; simp
  | cons n names ih =>
    intro hs q
    simp only [List.foldl_cons]
    rw [ih]
    by_cases hqn : q ∈ names
    · simp [hqn, List.mem_cons]
    · rw [if_neg hqn, hGet_hRemove]
      by_cases hq : q = n <;> simp [hq, hqn, List.mem_cons]

lemma hRemove_eq_filter (hs : HeadersM) (n : String) :
    hRemove hs n = hs.filter (fun p => !(p.1 == n)) := by
  induction hs with
  | nil => rfl
  | cons a hs ih =>
    obtain ⟨k, w⟩ := a
    by_cases h : k = n <;> simp [hRemove, List.filter_cons, h, ih]

lemma foldlRemove_eq_filter (names : List String) :
    ∀ hs : HeadersM,
      names.foldl (fun h n => hRemove h n) hs =
        hs.filter (fun p => !names.contains p.1) := by
  induction names with
  | nil =>
    intro hs
    simp [List.filter]
  | cons n names ih =>
    intro hs
    simp only [List.foldl_cons]
    rw [ih, hRemove_eq_filter, List.filter_filter]
    apply List.filter_congr
    intro p _
    simp only [List.contains_cons, Bool.not_or, Bool.and_comm]

lemma hGet_applyAdd_avoid (rules : List (String × String)) :
    ∀ (headers : HeadersM) (name : String),
      (∀ kv ∈ rules, parseHeaderName kv.1 ≠ some name) →
      hGet (applyAdd headers rules) name = hGet headers name := by
  induction rules with
  | nil => intro headers name _; rfl
  | cons kv rules ih =>
    intro headers name h
    simp only [applyAdd, List.foldl_cons] at *
    rw [ih _ name (fun kv2 hm => h kv2 (List.mem_cons_of_mem _ hm))]
    cases hp : parseHeaderName kv.1 with
    | none => rfl
    | some n =>
      have hne : name ≠ n := by
        intro he
        exact h kv (List.mem_cons_self _ _) (by rw [hp, he])
      dsimp only
      by_cases hv : headerValueOk kv.2 = true
      · rw [if_pos hv, hGet_hInsert, if_neg hne]
      · rw [if_neg hv]

lemma hGet_applyStrip_avoid (names : List String) :
    ∀ (headers : HeadersM) (name : String),
      (∀ k ∈ names, parseHeaderName k ≠ some name) →
      hGet (applyStrip headers names) name = hGet headers name := by
  induction names with
  | nil => intro headers name _; rfl
  | cons k names ih =>
    intro headers name h
    simp only [applyStrip, List.foldl_cons] at *
    rw [ih _ name (fun k2 hm => h k2 (List.mem_cons_of_mem _ hm))]
    cases hp : parseHeaderName k with
    | none => rfl
    | some n =>
      have hne : name ≠ n := by
        intro he
        exact h k (List.mem_cons_self _ _) (by rw [hp, he])
      dsimp only
      rw [hGet_hRemove, if_neg hne]

lemma hGet_bfhHost_other (headers : HeadersM) (url : UrlModel)
    (q : String) (hq : q ≠ "host") :
    hGet (bfhHost headers url) q = hGet headers q := by
  unfold bfhHost
  cases url.host with
  | none => rfl
  | some host =>
    dsimp only
    split
    · rw [hGet_hInsert, if_neg hq]
    · rfl

lemma hGet_bfhProxy_other (headers original : HeadersM) (ip : String)
    (url : UrlModel) (defaults : Defaults) (cid : String) (q : String)
    (hq : ¬ q ∈ proxySetNames) :
    hGet (bfhProxy headers original ip url defaults cid) q =
      hGet headers q := by
  simp only [proxySetNames, List.mem_cons, List.not_mem_nil, or_false,
    not_or] at hq
  obtain ⟨h1, h2, h3, h4, h5, h6, h7⟩ := hq
  unfold bfhProxy
  split
  · rw [hGet_condInsert_other _ _ _ _ h7, hGet_condInsert_other _ _ _ _ h6]
    have hmid :
        hGet (match hGet original "host" with
          | some original_host =>
            hInsert (condInsert
              (condInsert (condInsert headers "x-forwarded-for"
                  (xffValue headers ip))
                "x-real-ip" (realIpValue (xffValue headers ip) ip))
              "x-forwarded-proto"
              (if url.scheme == "https" then "https" else "http"))
              "x-forwarded-host" original_host
          | none =>
            condInsert
              (condInsert (condInsert headers "x-forwarded-for"
                  (xffValue headers ip))
                "x-real-ip" (realIpValue (xffValue headers ip) ip))
              "x-forwarded-proto"
              (if url.scheme == "https" then "https" else "http")) q =
        hGet (condInsert
          (condInsert (condInsert headers "x-forwarded-for"
              (xffValue headers ip))
            "x-real-ip" (realIpValue (xffValue headers ip) ip))
          "x-forwarded-proto"
          (if url.scheme == "https" then "https" else "http")) q := by
      cases hGet original "host" with
      | none => rfl
      | some oh => rw [hGet_hInsert, if_neg h5]
    rw [hmid, hGet_condInsert_other _ _ _ _ h4,
      hGet_condInsert_other _ _ _ _ h3, hGet_condInsert_other _ _ _ _ h2]
  · rfl

lemma hGet_bfhProxy_xff (headers original : HeadersM) (ip : String)
    (url : UrlModel) (defaults : Defaults) (cid : String)
    (hp : defaults.proxy_headers = true)
    (hv : headerValueOk (xffValue headers ip) = true) :
    hGet (bfhProxy headers original ip url defaults cid)
      "x-forwarded-for" = some (xffValue headers ip) := by
  unfold bfhProxy
  rw [if_pos hp]
  rw [hGet_condInsert_other _ _ _ _ (by decide),
    hGet_condInsert_other _ _ _ _ (by decide)]
  cases hh : hGet original "host" with
  | none =>
    dsimp only
    rw [hGet_condInsert_other _ _ _ _ (by decide),
      hGet_condInsert_other _ _ _ _ (by decide),
      hGet_condInsert_self _ _ _ hv]
  | some oh =>
    dsimp only
    rw [hGet_hInsert, if_neg (by decide),
      hGet_condInsert_other _ _ _ _ (by decide),
      hGet_condInsert_other _ _ _ _ (by decide),
      hGet_condInsert_self _ _ _ hv]

lemma hGet_bfhProxy_realip (headers original : HeadersM) (ip : String)
    (url : UrlModel) (defaults : Defaults) (cid : String)
    (hp : defaults.proxy_headers = true)
    (hv : headerValueOk (realIpValue (xffValue headers ip) ip) = true) :
    hGet (bfhProxy headers original ip url defaults cid) "x-real-ip" =
      some (realIpValue (xffValue headers ip) ip) := by
  unfold bfhProxy
  rw [if_pos hp]
  rw [hGet_condInsert_other _ _ _ _ (by decide),
    hGet_condInsert_other _ _ _ _ (by decide)]
  cases hh : hGet original "host" with
  | none =>
    dsimp only
    rw [hGet_condInsert_other _ _ _ _ (by decide),
      hGet_condInsert_self _ _ _ hv]
  | some oh =>
    dsimp only
    rw [hGet_hInsert, if_neg (by decide),
      hGet_condInsert_other _ _ _ _ (by decide),
      hGet_condInsert_self _ _ _ hv]

/-- The add/strip rule loops never touch a name they avoid. -/
lemma hGet_build_eq_proxy (original : HeadersM) (client_ip : String)
    (target_url : UrlModel) (route : Route) (defaults : Defaults)
    (cid : String) (name : String)
    (havoid : rulesAvoidName route defaults name) :
    hGet (build_forwarded_headers original client_ip target_url route
        defaults cid) name =
      hGet (bfhProxy (bfhPre original defaults target_url) original
        client_ip target_url defaults cid) name := by
  obtain ⟨h1, h2, h3, h4⟩ := havoid
  unfold build_forwarded_headers
  rw [hGet_applyStrip_avoid _ _ _ h4, hGet_applyStrip_avoid _ _ _ h3,
    hGet_applyAdd_avoid _ _ _ h2, hGet_applyAdd_avoid _ _ _ h1]

/-- C6: with proxy_headers enabled and header rules not overriding the
two names, `build_forwarded_headers` sets the outgoing
`x-forwarded-for` to the existing readable value with
`", " + client_ip` appended (or the client IP alone when absent), and
sets `x-real-ip` to `realIpValue` of that final value — the first
comma-separated entry, trimmed. -/
theorem C6_x_forwarded_for (original : HeadersM) (client_ip : String)
    (target_url : UrlModel) (route : Route) (defaults : Defaults)
    (correlation_id : String)
    (hp : defaults.proxy_headers = true)
    (havoidXff : rulesAvoidName route defaults "x-forwarded-for")
    (havoidRip : rulesAvoidName route defaults "x-real-ip")
    (hvXff : headerValueOk
      (xffValue (bfhPre original defaults target_url) client_ip) = true)
    (hvRip : headerValueOk
      (realIpValue (xffValue (bfhPre original defaults target_url)
        client_ip) client_ip) = true) :
    (∀ existing,
      hGet (bfhPre original defaults target_url) "x-forwarded-for" =
          some existing →
      headerValueToStrOk existing = true →
      xffValue (bfhPre original defaults target_url) client_ip =
        existing ++ ", " ++ client_ip) ∧
    (hGet (bfhPre original defaults target_url) "x-forwarded-for" =
        none →
      xffValue (bfhPre original defaults target_url) client_ip =
        client_ip) ∧
    hGet (build_forwarded_headers original client_ip target_url route
        defaults correlation_id) "x-forwarded-for" =
      some (xffValue (bfhPre original defaults target_url) client_ip) ∧
    hGet (build_forwarded_headers original client_ip target_url route
        defaults correlation_id) "x-real-ip" =
      some (realIpValue
        (xffValue (bfhPre original defaults target_url) client_ip)
        client_ip) := by
  refine ⟨?_, ?_, ?_, ?_⟩
  · intro existing h hts
    rw [xffValue, h]
    simp [hts]
  · intro h
    rw [xffValue, h]
    rfl
  · rw [hGet_build_eq_proxy _ _ _ _ _ _ _ havoidXff,
      hGet_bfhProxy_xff _ _ _ _ _ _ hp hvXff]
  · rw [hGet_build_eq_proxy _ _ _ _ _ _ _ havoidRip,
      hGet_bfhProxy_realip _ _ _ _ _ _ hp hvRip]

/-- Concrete target URL and route for the header witnesses. -/
def c6Url : UrlModel :=
  { scheme := "http"
    host := some "target"
    port := some 8080 }

def c6Route : Route :=
  { path := "/test", methods := ["*"], timeout := none,
    headers := { add := [], strip := [] },
    targets := [{ url := "http://target:8080/test", primary := false,
                  timeout := none }] }

/-- Witness for C6 — the literal example of the claim: incoming
`x-forwarded-for: 1.2.3.4` and client IP `10.0.0.1` yield outgoing
`x-forwarded-for: 1.2.3.4, 10.0.0.1` and `x-real-ip: 1.2.3.4`. -/
theorem C6_x_forwarded_for_witness :
    hGet (build_forwarded_headers [("x-forwarded-for", "1.2.3.4")]
        "10.0.0.1" c6Url c6Route Defaults.default "test-id")
      "x-forwarded-for" = some "1.2.3.4, 10.0.0.1" ∧
    hGet (build_forwarded_headers [("x-forwarded-for", "1.2.3.4")]
        "10.0.0.1" c6Url c6Route Defaults.default "test-id")
      "x-real-ip" = some "1.2.3.4" := by
  have h := C6_x_forwarded_for [("x-forwarded-for", "1.2.3.4")]
    "10.0.0.1" c6Url c6Route Defaults.default "test-id" rfl
    (by unfold rulesAvoidName; decide) (by unfold rulesAvoidName; decide)
    (by decide) (by decide)
  exact ⟨h.2.2.1.trans (by decide), h.2.2.2.trans (by decide)⟩

lemma hopByHop_not_proxySet :
    ∀ name ∈ hopByHop, ¬ name ∈ proxySetNames := by decide

/-- C7: with strip_hop_by_hop enabled, `build_forwarded_headers`
removes the eight hop-by-hop headers from the outgoing request (as
long as the user header rules do not re-add them) and forwards every
other header (outside the proxy-set names and the user rules)
unchanged; and `strip_response_hop_by_hop` filters out exactly the
eight hop-by-hop names plus `content-length`, leaving every other
response header entry unchanged. -/
theorem C7_hop_by_hop_stripping (original : HeadersM) (client_ip : String)
    (target_url : UrlModel) (route : Route) (defaults : Defaults)
    (correlation_id : String)
    (hstrip : defaults.strip_hop_by_hop = true) :
    (∀ name, name ∈ hopByHop → rulesAvoidName route defaults name →
      hGet (build_forwarded_headers original client_ip target_url route
        defaults correlation_id) name = none) ∧
    (∀ name, defaults.forward_headers = true → ¬ name ∈ hopByHop →
      ¬ name ∈ proxySetNames → rulesAvoidName route defaults name →
      hGet (build_forwarded_headers original client_ip target_url route
        defaults correlation_id) name = hGet original name) ∧
    (∀ hs, strip_response_hop_by_hop hs =
      hs.filter
        (fun p => !((hopByHop ++ ["content-length"]).contains p.1))) := by
  refine ⟨?_, ?_, ?_⟩
  · intro name hmem havoid
    rw [hGet_build_eq_proxy _ _ _ _ _ _ _ havoid,
      hGet_bfhProxy_other _ _ _ _ _ _ _
        (hopByHop_not_proxySet name hmem)]
    unfold bfhPre
    rw [hGet_bfhHost_other _ _ _
      (fun he => hopByHop_not_proxySet name hmem (by rw [he]; decide))]
    unfold bfhStart
    rw [if_pos hstrip, hGet_foldlRemove, if_pos hmem]
  · intro name hfwd hnh hnp havoid
    rw [hGet_build_eq_proxy _ _ _ _ _ _ _ havoid,
      hGet_bfhProxy_other _ _ _ _ _ _ _ hnp]
    unfold bfhPre
    rw [hGet_bfhHost_other _ _ _ (fun he => hnp (by rw [he]; decide))]
    unfold bfhStart
    rw [if_pos hstrip, if_pos hfwd, hGet_foldlRemove, if_neg hnh]
  · intro hs
    rw [strip_response_hop_by_hop, foldlRemove_eq_filter,
      hRemove_eq_filter, List.filter_filter]
    apply List.filter_congr
    intro p _
    by_cases h : p.1 = "content-length" <;>
      simp [h, Bool.not_or, Bool.and_comm]

/-- Witness for C7 — spec scenario 4 plus a concrete response: a
request with `connection: keep-alive` and
`content-type: application/json` is forwarded without `connection`
and with `content-type` intact; a response with `connection`,
`content-length` and `content-type` keeps only `content-type`. -/
theorem C7_hop_by_hop_stripping_witness :
    hGet (build_forwarded_headers
        [("connection", "keep-alive"), ("content-type", "application/json")]
        "10.0.0.1" c6Url c6Route Defaults.default "test-id")
      "connection" = none ∧
    hGet (build_forwarded_headers
        [("connection", "keep-alive"), ("content-type", "application/json")]
        "10.0.0.1" c6Url c6Route Defaults.default "test-id")
      "content-type" = some "application/json" ∧
    strip_response_hop_by_hop
        [("connection", "x"), ("content-length", "5"),
         ("content-type", "y")] =
      [("content-type", "y")] := by
  have h := C7_hop_by_hop_stripping
    [("connection", "keep-alive"), ("content-type", "application/json")]
    "10.0.0.1" c6Url c6Route Defaults.default "test-id" rfl
  refine ⟨h.1 "connection" (by decide)
    (by unfold rulesAvoidName; decide), ?_, ?_⟩
  · exact (h.2.1 "content-type" rfl (by decide) (by decide)
      (by unfold rulesAvoidName; decide)).trans (by decide)
  · exact (h.2.2 [("connection", "x"), ("content-length", "5"),
      ("content-type", "y")]).trans (by decide)

/-! ## Fan-out (src/proxy/fanout.rs)

The network is external: the outcome of each target dispatch and the
success of `url::Url::parse` on each resolved URL are oracle
parameters of the model. -/

/-- The terminal state of one target dispatch (the per-dispatch state
machine: response with fully read body, body read failure, transport
failure, or timeout). -/
inductive DispatchOutcome
  | ok (status : Nat) (headers : HeadersM) (body : List Nat)
  | bodyErr (status : Nat)
  | transportErr (msg : String)
  | timedOut
  deriving Repr, DecidableEq

/-- The optional response data carried by a finished dispatch task:
only a fully read response produces data (src/proxy/fanout.rs
lines 119-167 pair every failure arm with `None`). -/
def primaryResponseOf :
    DispatchOutcome → Option (Nat × HeadersM × List Nat)
  | .ok status headers body => some (status, headers, body)
  | _ => none

/-- The target loop of `fan_out`: walks the targets with their
indices, `continue`-skipping any target whose resolved URL fails to
parse, and stores the spawned primary task's outcome when the index
equals `primary_idx`; secondary spawns are detached and never touch
the loop state. -/
def fanOutLoop (parseOk : String → Bool)
    (dispatch : Nat → DispatchOutcome) (params : Params)
    (primaryIdx : Nat) :
    Nat → List Target → Option DispatchOutcome → Option DispatchOutcome
  | _, [], primaryHandle => primaryHandle
  | idx, target :: rest, primaryHandle =>
    if parseOk (substitute_params target.url params) then
      if idx = primaryIdx then
        fanOutLoop parseOk dispatch params primaryIdx (idx + 1) rest
          (some (dispatch idx))
      else
        fanOutLoop parseOk dispatch params primaryIdx (idx + 1) rest
          primaryHandle
    else
      fanOutLoop parseOk dispatch params primaryIdx (idx + 1) rest
        primaryHandle

/-- `FanOutResult` from src/proxy/fanout.rs. -/
structure FanOutResult where
  primary_response : Option (Nat × HeadersM × List Nat)
  deriving Repr, DecidableEq

/-- `fan_out` from src/proxy/fanout.rs: the primary index is the first
target with `primary == true` (index 0 when none is marked); the
awaited primary handle's response data becomes the primary response —
`none` when the primary was never spawned or its dispatch failed. The
Rust function's return type is `Result` but every path returns `Ok`
(task panics are not modelled), so the model returns the result
directly. -/
def fan_out (parseOk : String → Bool)
    (dispatch : Nat → DispatchOutcome) (targets : List Target)
    (params : Params) : FanOutResult :=
  let primary_idx := (targets.findIdx? (fun t => t.primary)).getD 0
  let primaryHandle :=
    fanOutLoop parseOk dispatch params primary_idx 0 targets none
  { primary_response := primaryHandle.bind primaryResponseOf }

/-- The indices at which the target loop of `fan_out` spawns a task
(primary or secondary): exactly the targets whose resolved URL
parses; the `continue` on a parse failure precedes every spawn. -/
def dispatchedIdx (parseOk : String → Bool) (params : Params) :
    Nat → List Target → List Nat
  | _, [] => []
  | idx, target :: rest =>
    if parseOk (substitute_params target.url params) then
      idx :: dispatchedIdx parseOk params (idx + 1) rest
    else
      dispatchedIdx parseOk params (idx + 1) rest

/-- Closed form of the fan-out loop: the stored primary handle is the
primary target's dispatch when that target exists, lies at or after
the starting index, and its resolved URL parses; otherwise the
incoming handle survives. -/
lemma fanOutLoop_eq (parseOk : String → Bool)
    (dispatch : Nat → DispatchOutcome) (params : Params)
    (primaryIdx : Nat) :
    ∀ (rest : List Target) (idx : Nat) (h0 : Option DispatchOutcome),
      fanOutLoop parseOk dispatch params primaryIdx idx rest h0 =
        if primaryIdx < idx then h0
        else
          match rest.get? (primaryIdx - idx) with
          | none => h0
          | some t =>
            if parseOk (substitute_params t.url params) then
              some (dispatch primaryIdx)
            else h0 := by
  intro rest
  induction rest with
  | nil =>
    intro idx h0
    by_cases h : primaryIdx < idx <;> simp [fanOutLoop, h]
  | cons t rest ih =>
    intro idx h0
    by_cases hip : idx = primaryIdx
    · subst hip
      rw [fanOutLoop]
      have hlt : ¬ idx < idx := by omega
      rw [if_neg hlt]
      have hz : idx - idx = 0 := by omega
      rw [hz]
      by_cases hpk : parseOk (substitute_params t.url params) = true
      · rw [if_pos hpk, if_pos rfl, ih]
        rw [if_pos (by omega : idx < idx + 1)]
        simp [List.get?, hpk]
      · rw [if_neg hpk, ih, if_pos (by omega : idx < idx + 1)]
        simp [List.get?, hpk]
    · rw [fanOutLoop]
      have hstep :
          (if parseOk (substitute_params t.url params) = true then
            if idx = primaryIdx then
              fanOutLoop parseOk dispatch params primaryIdx (idx + 1) rest
                (some (dispatch idx))
            else
              fanOutLoop parseOk dispatch params primaryIdx (idx + 1) rest
                h0
          else
            fanOutLoop parseOk dispatch params primaryIdx (idx + 1) rest
              h0) =
          fanOutLoop parseOk dispatch params primaryIdx (idx + 1) rest
            h0 := by
        by_cases hpk : parseOk (substitute_params t.url params) = true <;>
          simp [hpk, hip]
      rw [hstep, ih]
      by_cases hlt : primaryIdx < idx
      · rw [if_pos (by omega : primaryIdx < idx + 1), if_pos hlt]
      · have hgt : idx < primaryIdx := by omega
        rw [if_neg (by omega : ¬ primaryIdx < idx + 1), if_neg hlt]
        have hsub : primaryIdx - idx = (primaryIdx - (idx + 1)) + 1 := by
          omega
        rw [hsub]
        simp [List.get?]

/-! ## Forward handler (src/proxy/mod.rs) -/

/-- A response as the handler emits it. The bare
`StatusCode::into_response()` results carry no headers and an empty
body. -/
structure ResponseM where
  status : Nat
  headers : HeadersM
  body : List Nat
  deriving Repr, DecidableEq

/-- The observable effects of one `forward_handler` call: the emitted
response, the increments applied to the `stats.forwarded` and
`stats.failed` counters, and the chosen correlation ID. -/
structure HandlerResult where
  response : ResponseM
  forwarded_inc : Nat
  failed_inc : Nat
  correlation_id : String
  deriving Repr, DecidableEq

/-- The correlation-ID choice of `forward_handler` (src/proxy/mod.rs
lines 34-37): the client's `x-correlation-id` value when present and
readable by `to_str()`, otherwise the fresh
`uuid::Uuid::new_v4().to_string()` supplied by the oracle. -/
def chooseCorrelationId (req_headers : HeadersM) (fresh_uuid : String) :
    String :=
  match (hGet req_headers "x-correlation-id").bind
      (fun v => if headerValueToStrOk v then some v else none) with
  | some v => v
  | none => fresh_uuid

/-- The primary-success response construction (src/proxy/mod.rs lines
85-102): upstream status; the upstream headers with hop-by-hop names
and content-length stripped, re-added by the builder in order,
followed by `x-correlation-id`; the buffered body. The typed-header
builder cannot fail, so the `unwrap_or_else` 502 arm is
unreachable. -/
def buildPrimaryResponse (status : Nat) (resp_headers : HeadersM)
    (body : List Nat) (correlation_id : String) : ResponseM :=
  { status := status
    headers := strip_response_hop_by_hop resp_headers ++
      [("x-correlation-id", correlation_id)]
    body := body }

/-- Placeholder for `List.getD`: `match_route` only returns in-bounds
indices (theorem C1), so `routes[route_idx]` never reads it. -/
def emptyRoute : Route :=
  { path := "", methods := [], timeout := none,
    headers := { add := [], strip := [] }, targets := [] }

/-- `forward_handler` from src/proxy/mod.rs, over the route-table
snapshot, the request path/method/headers, the UUID oracle, and the
fan-out oracles: choose the correlation ID; return 404 with no body
(and no counter increment) when no route matches; otherwise fan out
to the matched route's targets and either return the primary response
(bumping `forwarded`) or 502 with no body (bumping `failed`). -/
def forward_handler (routes : List Route) (path method : String)
    (req_headers : HeadersM) (fresh_uuid : String)
    (parseOk : String → Bool) (dispatch : Nat → DispatchOutcome) :
    HandlerResult :=
  let correlation_id := chooseCorrelationId req_headers fresh_uuid
  match match_route routes path method with
  | none =>
    { response := { status := 404, headers := [], body := [] }
      forwarded_inc := 0
      failed_inc := 0
      correlation_id := correlation_id }
  | some (route_idx, params) =>
    let route := routes.getD route_idx emptyRoute
    let result := fan_out parseOk dispatch route.targets params
    match result.primary_response with
    | some (status, resp_headers, body_bytes) =>
      { response :=
          buildPrimaryResponse status resp_headers body_bytes
            correlation_id
        forwarded_inc := 1
        failed_inc := 0
        correlation_id := correlation_id }
    | none =>
      { response := { status := 502, headers := [], body := [] }
        forwarded_inc := 0
        failed_inc := 1
        correlation_id := correlation_id }

/-- Closed form of the primary response of `fan_out`. -/
lemma fan_out_primary_eq (parseOk : String → Bool)
    (dispatch : Nat → DispatchOutcome) (targets : List Target)
    (params : Params) :
    (fan_out parseOk dispatch targets params).primary_response =
      match targets.get?
          ((targets.findIdx? (fun t => t.primary)).getD 0) with
      | none => none
      | some t =>
        if parseOk (substitute_params t.url params) then
          primaryResponseOf
            (dispatch ((targets.findIdx? (fun t => t.primary)).getD 0))
        else none := by
  unfold fan_out
  dsimp only
  rw [fanOutLoop_eq,
    if_neg (by omega :
      ¬ (targets.findIdx? (fun t => t.primary)).getD 0 < 0)]
  have hz : (targets.findIdx? (fun t => t.primary)).getD 0 - 0 =
      (targets.findIdx? (fun t => t.primary)).getD 0 := by omega
  rw [hz]
  cases targets.get? ((targets.findIdx? (fun t => t.primary)).getD 0)
    with
  | none => rfl
  | some t =>
    by_cases hpk : parseOk (substitute_params t.url params) = true <;>
      simp [hpk]

/-- C3: a request matching no route is answered 404 Not Found with no
body; a request whose matched route's primary target is dispatched
(URL parses) and ends in a failure terminal state — timeout,
transport error, or response-body read error — is answered 502 Bad
Gateway with no body. -/
theorem C3_route_miss_and_primary_failure (routes : List Route)
    (path method : String) (req_headers : HeadersM)
    (fresh_uuid : String) (parseOk : String → Bool)
    (dispatch : Nat → DispatchOutcome) :
    (match_route routes path method = none →
      (forward_handler routes path method req_headers fresh_uuid
        parseOk dispatch).response =
        { status := 404, headers := [], body := [] }) ∧
    (∀ route_idx params t,
      match_route routes path method = some (route_idx, params) →
      (routes.getD route_idx emptyRoute).targets.get?
        (((routes.getD route_idx emptyRoute).targets.findIdx?
          (fun tg => tg.primary)).getD 0) = some t →
      parseOk (substitute_params t.url params) = true →
      (dispatch (((routes.getD route_idx emptyRoute).targets.findIdx?
          (fun tg => tg.primary)).getD 0) = DispatchOutcome.timedOut ∨
        (∃ m, dispatch (((routes.getD route_idx
            emptyRoute).targets.findIdx? (fun tg => tg.primary)).getD 0) =
          DispatchOutcome.transportErr m) ∨
        (∃ st, dispatch (((routes.getD route_idx
            emptyRoute).targets.findIdx? (fun tg => tg.primary)).getD 0) =
          DispatchOutcome.bodyErr st)) →
      (forward_handler routes path method req_headers fresh_uuid
        parseOk dispatch).response =
        { status := 502, headers := [], body := [] }) := by
  constructor
  · intro h
    simp [forward_handler, h]
  · intro route_idx params t hmatch hget hok hfail
    have hnone :
        (fan_out parseOk dispatch
          (routes.getD route_idx
            emptyRoute).targets params).primary_response = none := by
      rw [fan_out_primary_eq, hget]
      dsimp only
      rw [if_pos hok]
      rcases hfail with h | ⟨m, h⟩ | ⟨st, h⟩ <;> rw [h] <;> rfl
    simp only [forward_handler, hmatch]
    rw [hnone]

/-- Concrete route for the handler witnesses: one route `/orders`
with a primary target. -/
def c3Route : Route :=
  { path := "/orders", methods := ["*"], timeout := none,
    headers := { add := [], strip := [] },
    targets := [{ url := "http://a:80/x", primary := false,
                  timeout := none },
                { url := "http://b:80/x", primary := true,
                  timeout := none }] }

/-- Witness for C3: `/products` misses the `/orders` table and gets a
bare 404; `/orders` with a timed-out primary gets a bare 502. -/
theorem C3_route_miss_and_primary_failure_witness :
    (forward_handler [c3Route] "/products" "GET" [] "uuid-1"
      (fun _ => true) (fun _ => DispatchOutcome.timedOut)).response =
      { status := 404, headers := [], body := [] } ∧
    (forward_handler [c3Route] "/orders" "GET" [] "uuid-1"
      (fun _ => true) (fun _ => DispatchOutcome.timedOut)).response =
      { status := 502, headers := [], body := [] } := by
  constructor
  · exact (C3_route_miss_and_primary_failure [c3Route] "/products" "GET"
      [] "uuid-1" (fun _ => true)
      (fun _ => DispatchOutcome.timedOut)).1 (by decide)
  · exact (C3_route_miss_and_primary_failure [c3Route] "/orders" "GET"
      [] "uuid-1" (fun _ => true)
      (fun _ => DispatchOutcome.timedOut)).2 0 []
      { url := "http://b:80/x", primary := true, timeout := none }
      (by decide) (by decide) rfl (Or.inl rfl)

/-- Counterexample for C4: a request that matches no route emits its
404 response while incrementing neither `requests_forwarded` nor
`requests_failed` — the claimed sum of exactly 1 fails. -/
theorem C4_counterexample :
    (forward_handler [c3Route] "/products" "GET" [] "uuid-1"
      (fun _ => true)
      (fun _ => DispatchOutcome.timedOut)).forwarded_inc +
      (forward_handler [c3Route] "/products" "GET" [] "uuid-1"
        (fun _ => true)
        (fun _ => DispatchOutcome.timedOut)).failed_inc = 0 := by
  decide

/-- C4 (amended): for every request that matches a route, exactly one
of the two counters is incremented by exactly 1 — `requests_forwarded`
when a primary response is returned, `requests_failed` otherwise —
while a request matching no route increments neither counter. -/
theorem C4_counters (routes : List Route) (path method : String)
    (req_headers : HeadersM) (fresh_uuid : String)
    (parseOk : String → Bool) (dispatch : Nat → DispatchOutcome) :
    (match_route routes path method = none →
      (forward_handler routes path method req_headers fresh_uuid
        parseOk dispatch).forwarded_inc = 0 ∧
      (forward_handler routes path method req_headers fresh_uuid
        parseOk dispatch).failed_inc = 0) ∧
    (∀ route_idx params,
      match_route routes path method = some (route_idx, params) →
      (forward_handler routes path method req_headers fresh_uuid
        parseOk dispatch).forwarded_inc +
        (forward_handler routes path method req_headers fresh_uuid
          parseOk dispatch).failed_inc = 1 ∧
      ((forward_handler routes path method req_headers fresh_uuid
          parseOk dispatch).forwarded_inc = 1 ↔
        ∃ resp, (fan_out parseOk dispatch
          (routes.getD route_idx emptyRoute).targets
          params).primary_response = some resp)) := by
  constructor
  · intro h
    constructor <;> simp [forward_handler, h]
  · intro route_idx params hmatch
    simp only [forward_handler, hmatch]
    cases hp : (fan_out parseOk dispatch
        (routes.getD route_idx emptyRoute).targets
        params).primary_response with
    | none =>
      refine ⟨rfl, ?_⟩
      simp
    | some resp =>
      obtain ⟨status, resp_headers, body⟩ := resp
      exact ⟨rfl, by simp⟩

/-- Witness for C4 (amended): the matched branches at concrete
outcomes — a successful primary increments `forwarded`, a timed-out
primary means no primary response. -/
theorem C4_counters_witness :
    ((forward_handler [c3Route] "/products" "GET" [] "uuid-1"
      (fun _ => true)
      (fun _ => DispatchOutcome.timedOut)).forwarded_inc = 0 ∧
    (forward_handler [c3Route] "/products" "GET" [] "uuid-1"
      (fun _ => true)
      (fun _ => DispatchOutcome.timedOut)).failed_inc = 0) ∧
    (forward_handler [c3Route] "/orders" "GET" [] "uuid-1"
      (fun _ => true)
      (fun _ => DispatchOutcome.timedOut)).forwarded_inc +
      (forward_handler [c3Route] "/orders" "GET" [] "uuid-1"
        (fun _ => true)
        (fun _ => DispatchOutcome.timedOut)).failed_inc = 1 := by
  constructor
  · exact (C4_counters [c3Route] "/products" "GET" [] "uuid-1"
      (fun _ => true) (fun _ => DispatchOutcome.timedOut)).1 (by decide)
  · exact ((C4_counters [c3Route] "/orders" "GET" [] "uuid-1"
      (fun _ => true) (fun _ => DispatchOutcome.timedOut)).2 0 []
      (by decide)).1

/-- Counterexample for C5: the 404 route-miss response carries no
`x-correlation-id` header at all, although the handler chose the
client-supplied ID — the claim that the chosen ID is returned to the
caller for every response the proxy path emits fails. -/
theorem C5_counterexample :
    (forward_handler [] "/x" "GET" [("x-correlation-id", "abc")]
      "uuid-1" (fun _ => true)
      (fun _ => DispatchOutcome.timedOut)).correlation_id = "abc" ∧
    hGet (forward_handler [] "/x" "GET" [("x-correlation-id", "abc")]
      "uuid-1" (fun _ => true)
      (fun _ => DispatchOutcome.timedOut)).response.headers
      "x-correlation-id" = none := by
  constructor
  · decide
  · decide

lemma hGet_bfhProxy_cid (headers original : HeadersM) (ip : String)
    (url : UrlModel) (defaults : Defaults) (cid : String)
    (hp : defaults.proxy_headers = true)
    (hv : headerValueOk cid = true) :
    hGet (bfhProxy headers original ip url defaults cid)
      "x-correlation-id" = some cid := by
  unfold bfhProxy
  rw [if_pos hp]
  exact hGet_condInsert_self _ _ _ hv

/-- C5 (amended): the chosen correlation ID is the client's
`x-correlation-id` value when present and readable, otherwise the
freshly generated UUID rendering supplied by the `uuid` crate; with
`proxy_headers` enabled (and header rules not overriding it) the
chosen ID is placed in the headers built for each dispatched target;
it is returned in the caller's response headers when a primary
response is returned; the 404 and 502 responses carry no headers at
all. -/
theorem C5_correlation_id (routes : List Route) (path method : String)
    (req_headers : HeadersM) (fresh_uuid : String)
    (parseOk : String → Bool) (dispatch : Nat → DispatchOutcome) :
    (forward_handler routes path method req_headers fresh_uuid parseOk
      dispatch).correlation_id =
      chooseCorrelationId req_headers fresh_uuid ∧
    (∀ v, hGet req_headers "x-correlation-id" = some v →
      headerValueToStrOk v = true →
      chooseCorrelationId req_headers fresh_uuid = v) ∧
    ((hGet req_headers "x-correlation-id").bind
        (fun v => if headerValueToStrOk v = true then some v
          else none) = none →
      chooseCorrelationId req_headers fresh_uuid = fresh_uuid) ∧
    (∀ original client_ip target_url route defaults,
      defaults.proxy_headers = true →
      rulesAvoidName route defaults "x-correlation-id" →
      headerValueOk (chooseCorrelationId req_headers fresh_uuid) =
        true →
      hGet (build_forwarded_headers original client_ip target_url
          route defaults (chooseCorrelationId req_headers fresh_uuid))
        "x-correlation-id" =
        some (chooseCorrelationId req_headers fresh_uuid)) ∧
    (∀ route_idx params status resp_headers body,
      match_route routes path method = some (route_idx, params) →
      (fan_out parseOk dispatch
        (routes.getD route_idx emptyRoute).targets
        params).primary_response = some (status, resp_headers, body) →
      ("x-correlation-id", chooseCorrelationId req_headers fresh_uuid)
        ∈ (forward_handler routes path method req_headers fresh_uuid
          parseOk dispatch).response.headers) ∧
    (match_route routes path method = none →
      (forward_handler routes path method req_headers fresh_uuid
        parseOk dispatch).response.headers = []) ∧
    (∀ route_idx params,
      match_route routes path method = some (route_idx, params) →
      (fan_out parseOk dispatch
        (routes.getD route_idx emptyRoute).targets
        params).primary_response = none →
      (forward_handler routes path method req_headers fresh_uuid
        parseOk dispatch).response.headers = []) := by
  refine ⟨?_, ?_, ?_, ?_, ?_, ?_, ?_⟩
  · unfold forward_handler
    cases hm : match_route routes path method with
    | none => rfl
    | some p =>
      obtain ⟨i, ps⟩ := p
      dsimp only
      cases hp : (fan_out parseOk dispatch
          (routes.getD i emptyRoute).targets ps).primary_response with
      | none => rfl
      | some r => obtain ⟨a, b, c⟩ := r; rfl
  · intro v h hts
    unfold chooseCorrelationId
    rw [h]
    simp [hts]
  · intro h
    unfold chooseCorrelationId
    rw [h]
  · intro original client_ip target_url route defaults hp havoid hv
    rw [hGet_build_eq_proxy _ _ _ _ _ _ _ havoid,
      hGet_bfhProxy_cid _ _ _ _ _ _ hp hv]
  · intro route_idx params status resp_headers body hmatch hfan
    simp only [forward_handler, hmatch]
    rw [hfan]
    simp [buildPrimaryResponse]
  · intro h
    simp [forward_handler, h]
  · intro route_idx params hmatch hfan
    simp only [forward_handler, hmatch]
    rw [hfan]

/-- Witness for C5 (amended): a client-supplied ID is echoed into the
target headers and the successful response; a missing header falls
back to the fresh UUID string. -/
theorem C5_correlation_id_witness :
    chooseCorrelationId [("x-correlation-id", "cid-7")] "uuid-1" =
      "cid-7" ∧
    chooseCorrelationId [] "uuid-1" = "uuid-1" ∧
    hGet (build_forwarded_headers [] "10.0.0.1" c6Url c6Route
        Defaults.default
        (chooseCorrelationId [("x-correlation-id", "cid-7")] "uuid-1"))
      "x-correlation-id" =
      some (chooseCorrelationId [("x-correlation-id", "cid-7")]
        "uuid-1") ∧
    ("x-correlation-id",
      chooseCorrelationId [("x-correlation-id", "cid-7")] "uuid-1") ∈
      (forward_handler [c3Route] "/orders" "GET"
        [("x-correlation-id", "cid-7")] "uuid-1" (fun _ => true)
        (fun _ => DispatchOutcome.ok 200 [] [])).response.headers := by
  have h1 := C5_correlation_id [c3Route] "/orders" "GET"
    [("x-correlation-id", "cid-7")] "uuid-1" (fun _ => true)
    (fun _ => DispatchOutcome.ok 200 [] [])
  have h2 := C5_correlation_id [c3Route] "/orders" "GET" [] "uuid-1"
    (fun _ => true) (fun _ => DispatchOutcome.ok 200 [] [])
  refine ⟨h1.2.1 "cid-7" rfl (by decide), h2.2.2.1 rfl, ?_, ?_⟩
  · exact h1.2.2.2.1 [] "10.0.0.1" c6Url c6Route Defaults.default rfl
      (by unfold rulesAvoidName; decide) (by decide)
  · exact h1.2.2.2.2.1 0 [] 200 [] [] (by decide) (by decide)

lemma dispatchedIdx_ge (parseOk : String → Bool) (params : Params) :
    ∀ (rest : List Target) (start idx : Nat),
      idx ∈ dispatchedIdx parseOk params start rest → start ≤ idx := by
  intro rest
  induction rest with
  | nil => intro start idx h; simp [dispatchedIdx] at h
  | cons t rest ih =>
    intro start idx h
    unfold dispatchedIdx at h
    by_cases hpk : parseOk (substitute_params t.url params) = true
    · rw [if_pos hpk] at h
      rcases List.mem_cons.mp h with h | h
      · omega
      · have := ih (start + 1) idx h
        omega
    · rw [if_neg hpk] at h
      have := ih (start + 1) idx h
      omega

lemma not_mem_dispatchedIdx (parseOk : String → Bool) (params : Params) :
    ∀ (rest : List Target) (start idx : Nat) (t : Target),
      rest.get? (idx - start) = some t → start ≤ idx →
      parseOk (substitute_params t.url params) = false →
      ¬ idx ∈ dispatchedIdx parseOk params start rest := by
  intro rest
  induction rest with
  | nil => intro start idx t hget; simp [List.get?] at hget
  | cons t0 rest ih =>
    intro start idx t hget hle hbad hmem
    unfold dispatchedIdx at hmem
    by_cases heq : idx = start
    · subst heq
      rw [show idx - idx = 0 from by omega] at hget
      simp only [List.get?] at hget
      injection hget with hget
      subst hget
      rw [if_neg (by simp [hbad])] at hmem
      have := dispatchedIdx_ge parseOk params rest (idx + 1) idx hmem
      omega
    · have hgt : start < idx := by omega
      have hget2 : rest.get? (idx - (start + 1)) = some t := by
        rw [show idx - start = (idx - (start + 1)) + 1 from by omega]
          at hget
        simpa [List.get?] using hget
      by_cases hpk : parseOk (substitute_params t0.url params) = true
      · rw [if_pos hpk] at hmem
        rcases List.mem_cons.mp hmem with h | h
        · omega
        · exact ih (start + 1) idx t hget2 (by omega) hbad h
      · rw [if_neg hpk] at hmem
        exact ih (start + 1) idx t hget2 (by omega) hbad hmem

/-- C10: a target whose resolved URL fails to parse is skipped by the
fan-out loop and never dispatched; when that target is the primary
(first `primary == true`, or index 0), `fan_out` still returns
normally with no primary response — no other target is promoted — and
the handler answers 502 Bad Gateway with no body. -/
theorem C10_unparseable_url_skipped (targets : List Target)
    (params : Params) (parseOk : String → Bool)
    (dispatch : Nat → DispatchOutcome) :
    (∀ idx t, targets.get? idx = some t →
      parseOk (substitute_params t.url params) = false →
      ¬ idx ∈ dispatchedIdx parseOk params 0 targets) ∧
    (∀ t, targets.get?
        ((targets.findIdx? (fun tg => tg.primary)).getD 0) = some t →
      parseOk (substitute_params t.url params) = false →
      (fan_out parseOk dispatch targets params).primary_response =
        none) ∧
    (∀ routes path method req_headers fresh_uuid route_idx params2 t,
      match_route routes path method = some (route_idx, params2) →
      (routes.getD route_idx emptyRoute).targets = targets →
      params2 = params →
      targets.get?
        ((targets.findIdx? (fun tg => tg.primary)).getD 0) = some t →
      parseOk (substitute_params t.url params) = false →
      (forward_handler routes path method req_headers fresh_uuid
        parseOk dispatch).response =
        { status := 502, headers := [], body := [] }) := by
  have hfan : ∀ t, targets.get?
      ((targets.findIdx? (fun tg => tg.primary)).getD 0) = some t →
      parseOk (substitute_params t.url params) = false →
      (fan_out parseOk dispatch targets params).primary_response =
        none := by
    intro t hget hbad
    rw [fan_out_primary_eq, hget]
    dsimp only
    rw [if_neg (by simp [hbad])]
  refine ⟨?_, hfan, ?_⟩
  · intro idx t hget hbad
    exact not_mem_dispatchedIdx parseOk params targets 0 idx t
      (by simpa using hget) (by omega) hbad
  · intro routes path method req_headers fresh_uuid route_idx params2 t
      hmatch htargets hparams hget hbad
    have hnone :
        (fan_out parseOk dispatch
          (routes.getD route_idx
            emptyRoute).targets params2).primary_response = none := by
      rw [htargets, hparams]
      exact hfan t hget hbad
    simp only [forward_handler, hmatch]
    rw [hnone]

/-- Witness for C10: a primary target whose resolved URL does not
parse is not dispatched, yields no primary response, and the caller
gets a bare 502. -/
theorem C10_unparseable_url_skipped_witness :
    (¬ 0 ∈ dispatchedIdx (fun s => !(s == "http://bad url"))
      [] 0 [{ url := "http://bad url", primary := true,
              timeout := none },
            { url := "http://ok:80/x", primary := false,
              timeout := none }]) ∧
    (fan_out (fun s => !(s == "http://bad url"))
      (fun _ => DispatchOutcome.ok 200 [] [])
      [{ url := "http://bad url", primary := true, timeout := none },
       { url := "http://ok:80/x", primary := false, timeout := none }]
      []).primary_response = none := by
  have h := C10_unparseable_url_skipped
    [{ url := "http://bad url", primary := true, timeout := none },
     { url := "http://ok:80/x", primary := false, timeout := none }]
    [] (fun s => !(s == "http://bad url"))
    (fun _ => DispatchOutcome.ok 200 [] [])
  exact ⟨h.1 0 ⟨"http://bad url", true, none⟩ (by decide) (by decide),
    h.2.1 ⟨"http://bad url", true, none⟩ (by decide) (by decide)⟩

/-! ## SHA-256 (`sha256_hex` wraps the sha2 crate; the crate
implements FIPS 180-4, transcribed here over byte lists, with 32-bit
words as naturals reduced modulo 2^32) -/

/-- Reduce to a 32-bit word. -/
def w32 (n : Nat) : Nat := n % 4294967296

/-- Right rotation of a 32-bit word. -/
def rotr32 (n x : Nat) : Nat := w32 ((x >>> n) ||| (x <<< (32 - n)))

def smallSigma0 (x : Nat) : Nat :=
  (rotr32 7 x) ^^^ (rotr32 18 x) ^^^ (x >>> 3)

def smallSigma1 (x : Nat) : Nat :=
  (rotr32 17 x) ^^^ (rotr32 19 x) ^^^ (x >>> 10)

def bigSigma0 (x : Nat) : Nat :=
  (rotr32 2 x) ^^^ (rotr32 13 x) ^^^ (rotr32 22 x)

def bigSigma1 (x : Nat) : Nat :=
  (rotr32 6 x) ^^^ (rotr32 11 x) ^^^ (rotr32 25 x)

/-- The 64 round constants (decimal rendering of the FIPS 180-4
table). -/
def sha256K : List Nat :=
  [1116352408, 1899447441, 3049323471, 3921009573, 961987163,
   1508970993, 2453635748, 2870763221, 3624381080, 310598401,
   607225278, 1426881987, 1925078388, 2162078206, 2614888103,
   3248222580, 3835390401, 4022224774, 264347078, 604807628,
   770255983, 1249150122, 1555081692, 1996064986, 2554220882,
   2821834349, 2952996808, 3210313671, 3336571891, 3584528711,
   113926993, 338241895, 666307205, 773529912, 1294757372,
   1396182291, 1695183700, 1986661051, 2177026350, 2456956037,
   2730485921, 2820302411, 3259730800, 3345764771, 3516065817,
   3600352804, 4094571909, 275423344, 430227734, 506948616,
   659060556, 883997877, 958139571, 1322822218, 1537002063,
   1747873779, 1955562222, 2024104815, 2227730452, 2361852424,
   2428436474, 2756734187, 3204031479, 3329325298]

/-- The initial hash value (decimal rendering). -/
def sha256H0 : List Nat :=
  [1779033703, 3144134277, 1013904242, 2773480762, 1359893119,
   2600822924, 528734635, 1541459225]

/-- Padding: append 0x80, zero bytes to 56 mod 64, and the bit length
as 8 big-endian bytes. -/
def sha256Pad (msg : List Nat) : List Nat :=
  let len := msg.length
  let bitLen := len * 8
  let zeros := (119 - len % 64) % 64
  msg ++ [0x80] ++ List.replicate zeros 0 ++
    [(bitLen >>> 56) % 256, (bitLen >>> 48) % 256, (bitLen >>> 40) % 256,
     (bitLen >>> 32) % 256, (bitLen >>> 24) % 256, (bitLen >>> 16) % 256,
     (bitLen >>> 8) % 256, bitLen % 256]

/-- Split a padded message into 64-byte blocks (the fuel only bounds
the recursion and is instantiated with the list length). -/
def toBlocksFuel : Nat → List Nat → List (List Nat)
  | 0, _ => []
  | _ + 1, [] => []
  | fuel + 1, l => l.take 64 :: toBlocksFuel fuel (l.drop 64)

/-- Big-endian 4-byte groups to 32-bit words. -/
def bytesToWords : List Nat → List Nat
  | b0 :: b1 :: b2 :: b3 :: rest =>
    (((b0 * 256 + b1) * 256 + b2) * 256 + b3) :: bytesToWords rest
  | _ => []

/-- One message-schedule extension step. -/
def schedStep (w : List Nat) : List Nat :=
  w ++ [w32 (smallSigma1 (w.getD (w.length - 2) 0) +
    w.getD (w.length - 7) 0 +
    smallSigma0 (w.getD (w.length - 15) 0) +
    w.getD (w.length - 16) 0)]

/-- The 64-entry message schedule of one block. -/
def schedule (w0 : List Nat) : List Nat :=
  (List.range 48).foldl (fun w _ => schedStep w) w0

/-- One compression round over the state [a, b, c, d, e, f, g, h]. -/
def compressRound (st : List Nat) (kw : Nat × Nat) : List Nat :=
  match st with
  | [a, b, c, d, e, f, g, h] =>
    let ch := (e &&& f) ^^^ ((4294967295 ^^^ e) &&& g)
    let maj := (a &&& b) ^^^ (a &&& c) ^^^ (b &&& c)
    let t1 := w32 (h + bigSigma1 e + ch + kw.1 + kw.2)
    let t2 := w32 (bigSigma0 a + maj)
    [w32 (t1 + t2), a, b, c, w32 (d + t1), e, f, g]
  | _ => st

/-- Compress one 64-byte block into the hash state. -/
def compressBlock (h : List Nat) (block : List Nat) : List Nat :=
  let w := schedule (bytesToWords block)
  let st := (sha256K.zip w).foldl compressRound h
  (h.zip st).map (fun p => w32 (p.1 + p.2))

/-- The SHA-256 digest of a byte list, as 32 bytes. -/
def sha256Bytes (msg : List Nat) : List Nat :=
  let padded := sha256Pad msg
  let blocks := toBlocksFuel padded.length padded
  (blocks.foldl compressBlock sha256H0).foldr
    (fun wv acc =>
      (wv >>> 24) % 256 :: (wv >>> 16) % 256 :: (wv >>> 8) % 256 ::
        wv % 256 :: acc)
    []

/-- A lowercase hexadecimal digit. -/
def hexDigit (n : Nat) : Char :=
  if n < 10 then Char.ofNat (48 + n) else Char.ofNat (87 + n)

/-- `sha256_hex` from src/config/sources/mod.rs: the lowercase hex
SHA-256 digest of the bytes. -/
def sha256_hex (data : List Nat) : String :=
  ⟨(sha256Bytes data).foldr
    (fun b acc => hexDigit (b / 16) :: hexDigit (b % 16) :: acc) []⟩

/-- Rust `str::as_bytes`: the UTF-8 bytes of a string. -/
def utf8BytesOfChar (c : Char) : List Nat :=
  let n := c.toNat
  if n < 128 then [n]
  else if n < 2048 then [192 + n / 64, 128 + n % 64]
  else if n < 65536 then
    [224 + n / 4096, 128 + (n / 64) % 64, 128 + n % 64]
  else
    [240 + n / 262144, 128 + (n / 4096) % 64, 128 + (n / 64) % 64,
     128 + n % 64]

def strBytes (s : String) : List Nat :=
  s.data.foldr (fun c acc => utf8BytesOfChar c ++ acc) []

/-- Sanity check against the FIPS 180-4 test vector for "abc". -/
lemma sha256_hex_abc : sha256_hex (strBytes "abc") =
    "ba7816bf8f01cfea414140de5dae2223b00361a396177a9cb410ff61f20015ad" := by
  decide

/-! ## Config validation (src/config/validation.rs)

Only success or failure of `validate` matters to the claims below;
the embedded error messages are abbreviated (no quote characters) and
Rust's Unicode `char::is_alphabetic` / `is_alphanumeric` and
`to_uppercase` are modelled by their ASCII restrictions, which agree
on the ASCII configuration data. `Url::parse` is the external `url`
crate: the `urlScheme` oracle returns the scheme of a successfully
parsed URL and `none` on parse failure. -/

/-- `ActuatorAuth` from src/config/model.rs. -/
structure ActuatorAuth where
  username : Option String
  password : Option String
  deriving Repr, DecidableEq

/-- `ActuatorConfig` from src/config/model.rs. -/
structure ActuatorConfig where
  enabled : Bool
  auth : ActuatorAuth
  deriving Repr, DecidableEq

/-- `Config` from src/config/model.rs. -/
structure Config where
  actuator : ActuatorConfig
  defaults : Defaults
  routes : List Route
  deriving Repr, DecidableEq

/-- `ValidationError` from src/error.rs. -/
structure ValidationError where
  route : String
  field : String
  message : String
  suggestion : Option String
  deriving Repr, DecidableEq

def startsWithSlash (s : String) : Bool :=
  match s.data with
  | '/' :: _ => true
  | _ => false

/-- `validate_path` from src/config/validation.rs. -/
def validate_path (path : String) : Except String Unit :=
  if path = "" then Except.error "path cannot be empty"
  else if !startsWithSlash path && path ≠ "*" then
    Except.error ("path must start with / or be * (did you mean /" ++
      path ++ "?)")
  else Except.ok ()

def upperStr (s : String) : String := ⟨s.data.map Char.toUpper⟩

/-- `VALID_METHODS` from src/config/validation.rs. -/
def VALID_METHODS : List String :=
  ["GET", "POST", "PUT", "DELETE", "PATCH", "HEAD", "OPTIONS", "*"]

/-- `validate_method` from src/config/validation.rs. -/
def validate_method (method : String) : Except String Unit :=
  let upper := upperStr method
  if VALID_METHODS.contains upper then Except.ok ()
  else Except.error (method ++ " is not a valid HTTP method")

/-- The alphanumeric-or-underscore run consumer of
`replace_params_for_validation`. -/
def rpfvConsume : List Char → List Char
  | [] => []
  | c :: rest =>
    if c.isAlphanum || c = '_' then rpfvConsume rest else c :: rest

/-- The scan of `replace_params_for_validation`: replace each
`:name` (name starting alphabetic or underscore) by `_p`. The fuel is
the character count; every step consumes at least one character. -/
def rpfvGoFuel : Nat → List Char → List Char
  | 0, cs => cs
  | _ + 1, [] => []
  | fuel + 1, c :: rest =>
    if c = ':' &&
        (match rest with
         | c2 :: _ => c2.isAlpha || c2 = '_'
         | [] => false) then
      '_' :: 'p' :: rpfvGoFuel fuel (rpfvConsume rest)
    else c :: rpfvGoFuel fuel rest

/-- `replace_params_for_validation` from src/config/validation.rs. -/
def replace_params_for_validation (url : String) : String :=
  ⟨rpfvGoFuel url.data.length url.data⟩

/-- `validate_target_url` from src/config/validation.rs. -/
def validate_target_url (urlScheme : String → Option String)
    (url : String) : Except String Unit :=
  let test_url := replace_params_for_validation url
  match urlScheme test_url with
  | some scheme =>
    if scheme ≠ "http" ∧ scheme ≠ "https" then
      Except.error ("unsupported scheme " ++ scheme ++
        " (expected http or https)")
    else Except.ok ()
  | none => Except.error (url ++ " is not a valid URL")

/-- The per-route body of the `validate` loop, with the running
duplicate-path set and error list. -/
def validateRoutesLoop (urlScheme : String → Option String) :
    List Route → Nat → List String → List ValidationError →
      List ValidationError
  | [], _, _, errors => errors
  | route :: rest, i, seen, errors =>
    let route_id :=
      if route.path = "" then "routes[" ++ Nat.repr i ++ "]"
      else route.path
    let errors := errors ++
      (match validate_path route.path with
       | Except.error msg =>
         [{ route := route_id, field := "path", message := msg,
            suggestion :=
              if route.path ≠ "" ∧ !startsWithSlash route.path then
                some ("did you mean /" ++ route.path ++ "?")
              else none }]
       | Except.ok _ => [])
    let errors := errors ++
      (if route.path ∈ seen then
        [{ route := route_id, field := "path",
           message := "duplicate route path", suggestion := none }]
      else [])
    let errors := errors ++
      route.methods.foldl
        (fun acc m => acc ++
          (match validate_method m with
           | Except.error msg =>
             [{ route := route_id, field := "methods", message := msg,
                suggestion := none }]
           | Except.ok _ => []))
        []
    let errors := errors ++
      (if route.targets = [] then
        [{ route := route_id, field := "targets",
           message := "at least one target must be defined",
           suggestion := none }]
      else [])
    let primary_count := (route.targets.filter (fun t => t.primary)).length
    let errors := errors ++
      (if primary_count > 1 then
        [{ route := route_id, field := "targets",
           message := Nat.repr primary_count ++
             " targets marked as primary, at most 1 allowed",
           suggestion := none }]
      else [])
    let errors := errors ++
      route.targets.foldl
        (fun acc t => acc ++
          (match validate_target_url urlScheme t.url with
           | Except.error msg =>
             [{ route := route_id, field := "targets.url",
                message := msg, suggestion := none }]
           | Except.ok _ => []))
        []
    validateRoutesLoop urlScheme rest (i + 1) (route.path :: seen) errors

/-- `validate` from src/config/validation.rs. -/
def validate (urlScheme : String → Option String) (config : Config) :
    Except (List ValidationError) Unit :=
  let errors : List ValidationError :=
    match config.actuator.auth.username, config.actuator.auth.password
      with
    | some u, some p =>
      (if u = "" then
        [{ route := "(root)", field := "actuator.auth.username",
           message := "username cannot be empty when auth is configured",
           suggestion := none }]
      else []) ++
      (if p = "" then
        [{ route := "(root)", field := "actuator.auth.password",
           message := "password cannot be empty when auth is configured",
           suggestion := none }]
      else [])
    | some _, none =>
      [{ route := "(root)", field := "actuator.auth.password",
         message := "password is required when username is set",
         suggestion := none }]
    | none, some _ =>
      [{ route := "(root)", field := "actuator.auth.username",
         message := "username is required when password is set",
         suggestion := none }]
    | none, none => []
  if config.routes = [] then
    Except.error (errors ++
      [{ route := "(root)", field := "routes",
         message := "at least one route must be defined",
         suggestion := none }])
  else
    let errors := validateRoutesLoop urlScheme config.routes 0 [] errors
    if errors = [] then Except.ok () else Except.error errors

/-! ## File-backed config source (src/config/sources/file_source.rs) -/

/-- The `SwitchboardError` cases reachable from `FileSource`
(src/error.rs). -/
inductive FsError
  | ConfigFileNotFound (path : String)
  | Io (msg : String)
  | ConfigParse (path : String) (msg : String)
  | ConfigValidation (errors : List ValidationError)
  deriving Repr, DecidableEq

/-- `FileSource::load`: the Tokio file read is modelled by its outcome
`readResult` (already mapped to `ConfigFileNotFound` / `Io` as
`read_content` does) and the stored `deserialize` function pointer by
a parameter; deserialize (mapping failure to `ConfigParse`), validate,
and pair the config with the `Hash(sha256_hex(content))` version. -/
def fileLoad (readResult : Except FsError String)
    (deserialize : String → Except String Config)
    (urlScheme : String → Option String) (path_display : String) :
    Except FsError (Config × ConfigVersion) := do
  let content ← readResult
  let config ←
    match deserialize content with
    | Except.ok c => pure c
    | Except.error e => Except.error (FsError.ConfigParse path_display e)
  match validate urlScheme config with
  | Except.error errors => Except.error (FsError.ConfigValidation errors)
  | Except.ok _ =>
    pure (config, ConfigVersion.Hash (sha256_hex (strBytes content)))

/-- `FileSource::has_changed`: read the content at this moment and
report whether its hash differs from `current`
(`Ok(*current != ConfigVersion::Hash(hash))`). -/
def fileHasChanged (readResult : Except FsError String)
    (current : ConfigVersion) : Except FsError Bool := do
  let content ← readResult
  pure (current != ConfigVersion.Hash (sha256_hex (strBytes content)))

/-- C9: a successful `FileSource::load` over raw content returns the
version `Hash(lowercase hex SHA-256 of the content bytes)`;
`has_changed(current)` reads the content at that moment and returns
true exactly when its hash differs from `current`; consequently
`has_changed` applied to the version just returned by `load` over
unchanged content returns false. -/
theorem C9_file_source_version (content : String)
    (deserialize : String → Except String Config)
    (urlScheme : String → Option String) (path_display : String) :
    (∀ cfg ver,
      fileLoad (Except.ok content) deserialize urlScheme path_display =
        Except.ok (cfg, ver) →
      ver = ConfigVersion.Hash (sha256_hex (strBytes content))) ∧
    (∀ current,
      fileHasChanged (Except.ok content) current =
        Except.ok
          (current != ConfigVersion.Hash
            (sha256_hex (strBytes content)))) ∧
    (∀ cfg ver,
      fileLoad (Except.ok content) deserialize urlScheme path_display =
        Except.ok (cfg, ver) →
      fileHasChanged (Except.ok content) ver = Except.ok false) := by
  have hver : ∀ cfg ver,
      fileLoad (Except.ok content) deserialize urlScheme path_display =
        Except.ok (cfg, ver) →
      ver = ConfigVersion.Hash (sha256_hex (strBytes content)) := by
    intro cfg ver h
    unfold fileLoad at h
    simp only [bind, Except.bind, pure] at h
    cases hd : deserialize content with
    | error e => rw [hd] at h; cases h
    | ok c =>
      rw [hd] at h
      simp only [Except.pure] at h
      cases hv : validate urlScheme c with
      | error errors => rw [hv] at h; cases h
      | ok u =>
        rw [hv] at h
        injection h with h
        injection h with h1 h2
        exact h2.symm
  refine ⟨hver, fun current => rfl, ?_⟩
  intro cfg ver h
  rw [hver cfg ver h]
  unfold fileHasChanged
  simp [bind, Except.bind, pure, Except.pure]

/-- Concrete config for the C9 witness (the minimal config of the
repository's own validation tests). -/
def c9Config : Config :=
  { actuator := { enabled := false,
                  auth := { username := none, password := none } }
    defaults := Defaults.default
    routes := [{ path := "/test", methods := ["*"], timeout := none,
                 headers := { add := [], strip := [] },
                 targets := [{ url := "http://localhost:8080/test",
                               primary := false, timeout := none }] }] }

/-- Witness for C9: over concrete raw content whose deserialization
yields `c9Config` (which validates), `has_changed` at the version
`load` just produced reports no change. -/
theorem C9_file_source_version_witness :
    fileHasChanged (Except.ok "routes: [/test]")
      (ConfigVersion.Hash (sha256_hex (strBytes "routes: [/test]"))) =
      Except.ok false :=
  (C9_file_source_version "routes: [/test]"
      (fun _ => Except.ok c9Config) (fun _ => some "http")
      "config.yaml").2.2 c9Config
    (ConfigVersion.Hash (sha256_hex (strBytes "routes: [/test]"))) rfl

end Switchboard
